import Mathlib

/-!
Verification of the NovaMind marketing-content pipeline against its
natural-language specification.

Each definition below is a shallow embedding of a function of the Python
repository (file and symbol named in its doc comment).  Python strings are
modelled as `List Char`, dictionaries with a fixed key layout as structures or
association lists, floats as exact rationals `ℚ`, and the random number
generator as an explicit draw record constrained by the documented range of
each `random.*` call.  Stateful methods take the relevant state (for
`CRMIntegration`, the `mock_mode` flag) and return the updated state
explicitly.  HTTP traffic is modelled by an oracle giving each request's
outcome.
-/

namespace Utils

/-- Whitespace as recognised by Python's `str.strip`/`str.rstrip` restricted to
the ASCII range: space, tab, linefeed, return, vertical tab, form feed. -/
def pyIsSpace (c : Char) : Bool :=
  c == ' ' || c == '\t' || c == '\n' || c == '\r' ||
  c == Char.ofNat 11 || c == Char.ofNat 12

/-- Python `str.rstrip()`: remove trailing whitespace. -/
def pyRstrip (s : List Char) : List Char :=
  (s.reverse.dropWhile pyIsSpace).reverse

/-- Python `str.lstrip()`: remove leading whitespace. -/
def pyLstrip (s : List Char) : List Char :=
  s.dropWhile pyIsSpace

/-- Python `str.strip()`: remove whitespace at both ends. -/
def pyStrip (s : List Char) : List Char :=
  pyRstrip (pyLstrip s)

/-- Embedding of `src/utils.py::sanitize_filename`:
`"".join(c for c in text if c.isalnum() or c in (' ', '-', '_')).rstrip()[:50]`.
Python's `str.isalnum` is Unicode-aware, so the classifier is a parameter; any
instantiation (e.g. the ASCII `Char.isAlphanum`) agrees with the source on the
characters it classifies the same way. -/
def sanitize_filename (isalnum : Char → Bool) (text : List Char) : List Char :=
  (pyRstrip (text.filter fun c => isalnum c || c == ' ' || c == '-' || c == '_')).take 50

end Utils

/-- The opening fence marker `clean_response` tests for (only the `json` tagged
form is recognised by the source). -/
def fenceJson : List Char := "```json".data

/-- The closing fence marker tested by `clean_response`. -/
def fenceBare : List Char := "```".data

namespace ContentGenerator

/-- Embedding of `src/content_generator.py::ContentGenerator.clean_response`:
drop a leading `"```json"` if present, then a trailing `"```"` if present; no
whitespace stripping in this variant. -/
def clean_response (raw_text : List Char) : List Char :=
  let r1 := if fenceJson.isPrefixOf raw_text then raw_text.drop fenceJson.length else raw_text
  if fenceBare.isSuffixOf r1 then r1.take (r1.length - fenceBare.length) else r1

end ContentGenerator

namespace PerformanceAnalyzer

/-- Embedding of `src/performance_analyzer.py::PerformanceAnalyzer.clean_response`:
same fence handling as the content generator's, followed by `str.strip()`. -/
def clean_response (raw_text : List Char) : List Char :=
  let r1 := if fenceJson.isPrefixOf raw_text then raw_text.drop fenceJson.length else raw_text
  let r2 := if fenceBare.isSuffixOf r1 then r1.take (r1.length - fenceBare.length) else r1
  Utils.pyStrip r2

/-- Python `int()` on a rational: truncation toward zero. -/
def pyInt (q : ℚ) : ℤ :=
  if 0 ≤ q then ⌊q⌋ else -⌊-q⌋

/-- Python `round(x, 4)`: the nearest multiple of `1/10000`.  (CPython rounds
exact halves to even; the half case can only differ by the representation of
ties, which none of the bounds proved below depend on.) -/
def round4 (q : ℚ) : ℚ :=
  (⌊q * 10000 + 1 / 2⌋ : ℚ) / 10000

/-- One random draw per persona, one field per `random.*` call in
`simulate_performance_data`, in source order. -/
structure PersonaDraw where
  sent : ℤ
  delivered : ℤ
  base_open : ℚ
  base_click : ℚ
  unsub : ℚ
  bounce : ℚ

/-- The range each `random.randint` / `random.uniform` call of
`simulate_performance_data` guarantees for its draw. -/
def DrawInRange (d : PersonaDraw) : Prop :=
  80 ≤ d.sent ∧ d.sent ≤ 100 ∧
  pyInt ((d.sent : ℚ) * (85 / 100)) ≤ d.delivered ∧ d.delivered ≤ d.sent ∧
  18 / 100 ≤ d.base_open ∧ d.base_open ≤ 35 / 100 ∧
  5 / 100 ≤ d.base_click ∧ d.base_click ≤ 15 / 100 ∧
  1 / 1000 ≤ d.unsub ∧ d.unsub ≤ 1 / 100 ∧
  1 / 100 ≤ d.bounce ∧ d.bounce ≤ 5 / 100

instance (d : PersonaDraw) : Decidable (DrawInRange d) := by
  unfold DrawInRange; infer_instance

/-- Per-persona record of the dictionary built by `simulate_performance_data`. -/
structure Metrics where
  sent : ℤ
  delivered : ℤ
  opened : ℚ
  clicked : ℚ
  unsubscribed : ℚ
  bounced : ℚ
deriving DecidableEq

/-- Persona multiplier applied to the base open rate (`founders ×1.1`,
`creatives ×1.2`, anything else falls into the `else` branch, `×1.0`). -/
def openMult (persona : String) : ℚ :=
  if persona = "founders" then 11 / 10
  else if persona = "creatives" then 12 / 10
  else 1

/-- Persona multiplier applied to the base click rate (`founders ×0.9`,
`creatives ×1.3`, `else ×1.1`). -/
def clickMult (persona : String) : ℚ :=
  if persona = "founders" then 9 / 10
  else if persona = "creatives" then 13 / 10
  else 11 / 10

/-- The open rate after the persona multiplier and the `min(_, 0.95)` cap. -/
def openRate (persona : String) (d : PersonaDraw) : ℚ :=
  min (d.base_open * openMult persona) (95 / 100)

/-- The click rate after the persona multiplier and the
`min(_, open_rate * 0.8)` cap (the cap uses the already-capped open rate, as in
the source). -/
def clickRate (persona : String) (d : PersonaDraw) : ℚ :=
  min (d.base_click * clickMult persona) (openRate persona d * (8 / 10))

/-- The metrics record `simulate_performance_data` builds for one persona. -/
def simulatePersona (persona : String) (d : PersonaDraw) : Metrics :=
  { sent := d.sent
    delivered := d.delivered
    opened := round4 (openRate persona d)
    clicked := round4 (clickRate persona d)
    unsubscribed := round4 d.unsub
    bounced := round4 d.bounce }

/-- Embedding of
`src/performance_analyzer.py::PerformanceAnalyzer.simulate_performance_data`:
the per-persona loop, with the generator's draws supplied by the oracle
`draws`.  The campaign id is only logged by the source, so it does not affect
the result. -/
def simulate_performance_data (campaign_id : String) (personas : List String)
    (draws : String → PersonaDraw) : List (String × Metrics) :=
  let _ := campaign_id
  personas.map fun p => (p, simulatePersona p (draws p))

end PerformanceAnalyzer

namespace Config

/-- Key list of `config.py::Config.PERSONAS`, in declaration (= Python dict
iteration) order. -/
def personasKeys : List String := ["founders", "creatives", "operations"]

end Config

namespace CRMIntegration

/-- The part of a `CRMIntegration` instance the claims depend on: the
`mock_mode` flag decided at construction and possibly flipped later. -/
structure CRMState where
  mock_mode : Bool
deriving DecidableEq

/-- Outcome of one HTTP request, as the `requests` library surfaces it to the
source's `try` blocks: a response carrying a status code, or a non-HTTP
exception. -/
inductive HttpOutcome where
  | status (code : ℕ)
  | exn
deriving DecidableEq

/-- Embedding of `src/crm_integration.py::CRMIntegration.__init__`'s mode
decision: mock mode iff the key is absent, the placeholder, or shorter than 20
characters. -/
def initMockMode (api_key : Option String) : Bool :=
  match api_key with
  | none => true
  | some k => k == "your_hubspot_key_here" || decide (k.length < 20)

/-- Result of `create_or_update_contact`, abstracting the response dictionaries
to which code path produced them. -/
inductive ContactResult where
  | mockResponse
  | created
  | updated
deriving DecidableEq

/-- Embedding of `src/crm_integration.py::CRMIntegration.create_or_update_contact`:
in mock mode return the mock response; otherwise a 409 goes to the update
path, a 2xx is a creation, an HTTP error of 401 flips `mock_mode` to `True`
and falls back to mock, any other HTTP error or exception falls back to mock
without touching the flag.  `resp` is the outcome of the `requests.post`. -/
def create_or_update_contact (st : CRMState) (resp : HttpOutcome) :
    CRMState × ContactResult :=
  if st.mock_mode then (st, .mockResponse)
  else
    match resp with
    | .status code =>
        if code == 409 then (st, .updated)
        else if 400 ≤ code then
          if code == 401 then ({ mock_mode := true }, .mockResponse)
          else (st, .mockResponse)
        else (st, .created)
    | .exn => (st, .mockResponse)

/-- A contact dictionary: its optional `persona` value plus an identifying
payload standing for the remaining fields. -/
structure Contact where
  persona : Option String
  payload : ℕ
deriving DecidableEq

/-- Python `contact.get('persona', 'founders')`. -/
def contactPersona (c : Contact) : String :=
  c.persona.getD "founders"

/-- One iteration of the `segment_contacts` loop: append the contact to the
group of its tag when that tag is one of the segment keys, otherwise leave all
groups unchanged (the contact is dropped). -/
def addContact (segs : List (String × List Contact)) (c : Contact) :
    List (String × List Contact) :=
  let p := contactPersona c
  if (segs.map Prod.fst).contains p then
    segs.map fun kv => if kv.1 = p then (kv.1, kv.2 ++ [c]) else kv
  else segs

/-- Embedding of `src/crm_integration.py::CRMIntegration.segment_contacts`:
initialise one empty group per persona of `Config.PERSONAS`, then fold the
contact list through `addContact`. -/
def segment_contacts (contacts : List Contact) : List (String × List Contact) :=
  contacts.foldl addContact (Config.personasKeys.map fun p => (p, []))

/-- Embedding of `src/crm_integration.py::CRMIntegration._check_marketing_access`:
`False` in mock mode, otherwise the probe request's success. -/
def check_marketing_access (st : CRMState) (probeOk : Bool) : Bool :=
  if st.mock_mode then false else probeOk

/-- How one persona's newsletter was "sent": a real API response or the
single-persona mock fallback. -/
inductive PerSend where
  | real
  | mockSingle
deriving DecidableEq

/-- Result of `send_campaign`: the all-mock distribution, or per-persona
results from the live loop. -/
inductive SendResult where
  | mockDistribution
  | live (results : List (String × PerSend))
deriving DecidableEq

/-- The live per-persona send loop of `send_campaign`.  A 401 or 403 makes the
whole loop return the mock distribution (`none` here); any other HTTP error or
exception degrades only that persona's entry. -/
def sendLoop (responses : String → HttpOutcome) :
    List String → Option (List (String × PerSend))
  | [] => some []
  | p :: ps =>
      match responses p with
      | .status code =>
          if 400 ≤ code then
            if code == 401 || code == 403 then none
            else (sendLoop responses ps).map fun rs => (p, .mockSingle) :: rs
          else (sendLoop responses ps).map fun rs => (p, .real) :: rs
      | .exn => (sendLoop responses ps).map fun rs => (p, .mockSingle) :: rs

/-- Embedding of `src/crm_integration.py::CRMIntegration.send_campaign`:
probe marketing access; in mock mode or without access return the mock
distribution; otherwise run the live loop, falling back to the mock
distribution if it hits a 401/403.  The method never assigns
`self.mock_mode`, so the state comes back unchanged on every path. -/
def send_campaign (st : CRMState) (probeOk : Bool) (personas : List String)
    (responses : String → HttpOutcome) : CRMState × SendResult :=
  let can_use_marketing := check_marketing_access st probeOk
  if st.mock_mode || !can_use_marketing then (st, .mockDistribution)
  else
    match sendLoop responses personas with
    | none => (st, .mockDistribution)
    | some rs => (st, .live rs)

/-- A persona newsletter (`subject_line`, `content`); the preview text is
optional in the source. -/
structure Newsletter where
  subject_line : String
  content : String
deriving DecidableEq

/-- The `campaign_data` dictionary assembled by `main.py::run_pipeline`. -/
structure CampaignData where
  campaign_id : String
  blog_title : String
  newsletters : List (String × Newsletter)
deriving DecidableEq

/-- The log dictionary built by `log_campaign`. -/
structure LogEntry where
  campaign_id : String
  blog_title : String
  send_date : String
  personas : List String
  status : String
  mode : String
deriving DecidableEq

/-- Embedding of `src/crm_integration.py::CRMIntegration.log_campaign`:
`status` is `'sent' if not self.mock_mode else 'simulated'`, `mode` is
`'mock' if self.mock_mode else 'production'`, `personas` the newsletter keys;
`now` stands for `format_timestamp()`. -/
def log_campaign (st : CRMState) (campaign_data : CampaignData) (now : String) :
    LogEntry :=
  { campaign_id := campaign_data.campaign_id
    blog_title := campaign_data.blog_title
    send_date := now
    personas := campaign_data.newsletters.map Prod.fst
    status := if !st.mock_mode then "sent" else "simulated"
    mode := if st.mock_mode then "mock" else "production" }

end CRMIntegration

namespace PyJson

/-- The JSON values the pipeline's artifacts are built from: null, booleans,
integers, floats, strings, arrays and string-keyed objects, covering every
payload this repository passes to `json.dump` (including the `round(x, 4)`
float rates of the performance artifacts).  A float is carried as the decimal
numeral `float.__repr__` writes for it — a sign, an integer part and a
non-empty run of fraction digits (`real neg ip f0 frac` stands for the numeral
`-? ip . f0 frac…`).  Every float this repository persists is a rounded rate in
`[0.001, 0.95]`, inside the interval `[1e-4, 1e16)` on which CPython's repr
uses exactly this plain-decimal form with no exponent, and
`float(repr(x)) == x` holds exactly, so the numeral and the float determine
each other.  Strings are `List Char`, i.e. sequences of Unicode scalar values;
the file encoding (`encoding='utf-8'` on both ends, `ensure_ascii=False`) is a
bijection between these and the stored bytes. -/
inductive Json where
  | null
  | bool (b : Bool)
  | int (n : ℤ)
  | real (neg : Bool) (ip : ℕ) (f0 : Fin 10) (frac : List (Fin 10))
  | str (s : List Char)
  | arr (items : List Json)
  | obj (members : List (List Char × Json))

/-- Decimal digit character (`0`–`9`) of `d % 10`. -/
def digitChar (d : ℕ) : Char := Char.ofNat (48 + d % 10)

/-- Decimal digits of `n`, most significant first. -/
def natDigits (n : ℕ) : List Char :=
  if n < 10 then [digitChar n]
  else natDigits (n / 10) ++ [digitChar (n % 10)]
termination_by n
decreasing_by exact Nat.div_lt_self (by omega) (by omega)

/-- Decimal rendering of an integer, as `json.dump` writes it. -/
def intChars (i : ℤ) : List Char :=
  if i < 0 then '-' :: natDigits i.natAbs else natDigits i.natAbs

/-- Unsigned body of a float numeral: integer part, decimal point, and the
non-empty run of fraction digits. -/
def realBody (ip : ℕ) (f0 : Fin 10) (frac : List (Fin 10)) : List Char :=
  natDigits ip ++ '.' :: digitChar f0.val :: frac.map (fun d => digitChar d.val)

/-- Decimal rendering of a float, as `json.dump` writes it through
`float.__repr__`: optional minus sign, then the unsigned numeral. -/
def dumpReal (neg : Bool) (ip : ℕ) (f0 : Fin 10) (frac : List (Fin 10)) :
    List Char :=
  if neg then '-' :: realBody ip f0 frac else realBody ip f0 frac

/-- Lowercase hex digit of `n % 16`, as CPython's `\\u00xx` escapes use. -/
def hexDigitChar (n : ℕ) : Char :=
  if n % 16 < 10 then Char.ofNat (48 + n % 16) else Char.ofNat (87 + n % 16)

/-- How `json.dump` with `ensure_ascii=False` writes one string character:
quote, backslash and the named control characters get two-character escapes,
the remaining control characters get `\\u00xx`, everything else (including all
non-ASCII characters) is written as itself. -/
def escapeChar (c : Char) : List Char :=
  if c == '"' then ['\\', '"']
  else if c == '\\' then ['\\', '\\']
  else if c == Char.ofNat 8 then ['\\', 'b']
  else if c == Char.ofNat 12 then ['\\', 'f']
  else if c == '\n' then ['\\', 'n']
  else if c == '\r' then ['\\', 'r']
  else if c == '\t' then ['\\', 't']
  else if c.toNat < 32 then
    ['\\', 'u', '0', '0', hexDigitChar (c.toNat / 16), hexDigitChar c.toNat]
  else [c]

/-- A string body, character by character through `escapeChar`. -/
def escapeBody : List Char → List Char
  | [] => []
  | c :: cs => escapeChar c ++ escapeBody cs

/-- A JSON string literal: quoted, escaped body. -/
def dumpStr (s : List Char) : List Char :=
  '"' :: (escapeBody s ++ ['"'])

mutual

/-- Serialisation of a value, compact.  The source calls `json.dump(..., indent=2)`;
the indent inserts only inter-token whitespace, which `parseVal` skips before
every token, so the compact form is the faithful core of the codec. -/
def dump : Json → List Char
  | .null => "null".data
  | .bool true => "true".data
  | .bool false => "false".data
  | .int i => intChars i
  | .real neg ip f0 fr => dumpReal neg ip f0 fr
  | .str s => dumpStr s
  | .arr [] => "[]".data
  | .arr (x :: xs) => '[' :: dumpItems x xs
  | .obj [] => ['{', '}']
  | .obj (m :: ms) => '{' :: dumpMembers m ms
termination_by j => sizeOf j
decreasing_by all_goals (simp_wf; try omega)

/-- Comma-separated items of a non-empty array, including the closing bracket. -/
def dumpItems : Json → List Json → List Char
  | x, [] => dump x ++ [']']
  | x, y :: ys => dump x ++ ',' :: dumpItems y ys
termination_by x xs => sizeOf x + sizeOf xs
decreasing_by all_goals (simp_wf; try omega)

/-- Comma-separated members of a non-empty object, including the closing brace. -/
def dumpMembers : List Char × Json → List (List Char × Json) → List Char
  | (k, v), [] => dumpStr k ++ ':' :: (dump v ++ ['}'])
  | (k, v), m :: ms => dumpStr k ++ ':' :: (dump v ++ ',' :: dumpMembers m ms)
termination_by m ms => sizeOf m + sizeOf ms
decreasing_by all_goals (simp_wf; try omega)

end

mutual

/-- Fuel measure for the parser: every value costs at least one unit. -/
def jsize : Json → ℕ
  | .null => 1
  | .bool _ => 1
  | .int _ => 1
  | .real _ _ _ _ => 1
  | .str _ => 1
  | .arr xs => 1 + jsizeItems xs
  | .obj ms => 1 + jsizeMembers ms
termination_by j => sizeOf j
decreasing_by all_goals (simp_wf; try omega)

/-- Fuel of an item list. -/
def jsizeItems : List Json → ℕ
  | [] => 0
  | x :: xs => jsize x + jsizeItems xs + 1
termination_by xs => sizeOf xs
decreasing_by all_goals (simp_wf; try omega)

/-- Fuel of a member list. -/
def jsizeMembers : List (List Char × Json) → ℕ
  | [] => 0
  | (_, v) :: ms => jsize v + jsizeMembers ms + 1
termination_by ms => sizeOf ms
decreasing_by all_goals (simp_wf; try omega)

end

/-- JSON inter-token whitespace. -/
def isJsonWs (c : Char) : Bool :=
  c == ' ' || c == '\t' || c == '\n' || c == '\r'

/-- Skip inter-token whitespace. -/
def skipWs (s : List Char) : List Char :=
  s.dropWhile isJsonWs

/-- ASCII decimal digit test. -/
def isDigitChar (c : Char) : Bool :=
  48 ≤ c.toNat && c.toNat ≤ 57

/-- Numeric value of a digit character. -/
def digitVal (c : Char) : ℕ := c.toNat - 48

/-- Value of a most-significant-first digit string. -/
def digitsToNat (ds : List Char) : ℕ :=
  ds.foldl (fun a c => a * 10 + digitVal c) 0

/-- A digit character read back as a digit. -/
def finOfDigit (c : Char) : Fin 10 := ⟨digitVal c % 10, Nat.mod_lt _ (by omega)⟩

/-- Lex the unsigned part of a number token, `b` recording a consumed minus
sign: a non-empty digit run, then either a decimal point with a further
non-empty digit run (a float numeral) or nothing (an integer).  This is the
sub-grammar of JSON numbers that the serialiser emits: this repository's
writer never produces an exponent part. -/
def parseNumBody (b : Bool) (s : List Char) : Option (Json × List Char) :=
  if (s.takeWhile isDigitChar).isEmpty then none
  else
    match s.dropWhile isDigitChar with
    | '.' :: r2 =>
        (match r2 with
         | c :: r3 =>
             if isDigitChar c then
               some (.real b (digitsToNat (s.takeWhile isDigitChar)) (finOfDigit c)
                 ((r3.takeWhile isDigitChar).map finOfDigit),
                 r3.dropWhile isDigitChar)
             else none
         | [] => none)
    | r => some (.int (if b then -(digitsToNat (s.takeWhile isDigitChar) : ℤ)
        else (digitsToNat (s.takeWhile isDigitChar) : ℤ)), r)

/-- Lex a number token: an optional minus sign, then the unsigned body. -/
def parseNumTok (s : List Char) : Option (Json × List Char) :=
  match s with
  | '-' :: r => parseNumBody true r
  | _ => parseNumBody false s

/-- Value of a hex digit character, if it is one. -/
def hexVal (c : Char) : Option ℕ :=
  if 48 ≤ c.toNat && c.toNat ≤ 57 then some (c.toNat - 48)
  else if 97 ≤ c.toNat && c.toNat ≤ 102 then some (c.toNat - 87)
  else if 65 ≤ c.toNat && c.toNat ≤ 70 then some (c.toNat - 55)
  else none

/-- The character a two-character escape denotes: the escapes of RFC 8259
other than `\u`, each mapped to its code point. -/
def unescapeChar : Char → Option Char
  | '"' => some '"'
  | '\\' => some '\\'
  | '/' => some '/'
  | 'b' => some (Char.ofNat 8)
  | 'f' => some (Char.ofNat 12)
  | 'n' => some (Char.ofNat 10)
  | 'r' => some (Char.ofNat 13)
  | 't' => some (Char.ofNat 9)
  | _ => none

/-- Parse a string body after its opening quote, up to and over the closing
quote.  Structural on the input: a quote closes the string, a backslash starts
either a `\\uXXXX` escape or a two-character escape, anything else is taken
as itself. -/
def parseStrBody : List Char → Option (List Char × List Char)
  | [] => none
  | ch :: r =>
      if ch == '"' then some ([], r)
      else if ch == '\\' then
        match r with
        | 'u' :: a :: b :: c :: d :: r' =>
            (match hexVal a, hexVal b, hexVal c, hexVal d with
             | some va, some vb, some vc, some vd =>
                 match parseStrBody r' with
                 | some (cs, r'') =>
                     some (Char.ofNat (((va * 16 + vb) * 16 + vc) * 16 + vd) :: cs,
                       r'')
                 | none => none
             | _, _, _, _ => none)
        | e :: r' =>
            (match unescapeChar e with
             | some c =>
                 match parseStrBody r' with
                 | some (cs, r'') => some (c :: cs, r'')
                 | none => none
             | none => none)
        | [] => none
      else
        match parseStrBody r with
        | some (cs, r') => some (ch :: cs, r')
        | none => none

mutual

/-- Parse one JSON value.  Fuel-structural; `json_loads` supplies enough fuel
for any input it is given. -/
def parseVal : ℕ → List Char → Option (Json × List Char)
  | 0, _ => none
  | fuel + 1, s =>
      match skipWs s with
      | [] => none
      | c :: r =>
          if c == 'n' then
            match r with
            | 'u' :: 'l' :: 'l' :: r' => some (.null, r')
            | _ => none
          else if c == 't' then
            match r with
            | 'r' :: 'u' :: 'e' :: r' => some (.bool true, r')
            | _ => none
          else if c == 'f' then
            match r with
            | 'a' :: 'l' :: 's' :: 'e' :: r' => some (.bool false, r')
            | _ => none
          else if c == '"' then
            match parseStrBody r with
            | some (cs, r') => some (.str cs, r')
            | none => none
          else if c == '[' then
            match skipWs r with
            | [] => none
            | c2 :: r2 =>
                if c2 == ']' then some (.arr [], r2)
                else
                  match parseItems fuel (c2 :: r2) with
                  | some (xs, r') => some (.arr xs, r')
                  | none => none
          else if c == '{' then
            match skipWs r with
            | [] => none
            | c2 :: r2 =>
                if c2 == '}' then some (.obj [], r2)
                else
                  match parseMembers fuel (c2 :: r2) with
                  | some (ms, r') => some (.obj ms, r')
                  | none => none
          else if c == '-' || isDigitChar c then parseNumTok (c :: r)
          else none

/-- Parse the one-or-more comma-separated items of a non-empty array, over the
closing bracket. -/
def parseItems : ℕ → List Char → Option (List Json × List Char)
  | 0, _ => none
  | fuel + 1, s =>
      match parseVal fuel s with
      | some (v, r) =>
          (match skipWs r with
           | [] => none
           | c :: r' =>
               if c == ',' then
                 match parseItems fuel r' with
                 | some (xs, r'') => some (v :: xs, r'')
                 | none => none
               else if c == ']' then some ([v], r')
               else none)
      | none => none

/-- Parse the one-or-more members of a non-empty object, over the closing
brace. -/
def parseMembers : ℕ → List Char → Option (List (List Char × Json) × List Char)
  | 0, _ => none
  | fuel + 1, s =>
      match skipWs s with
      | [] => none
      | c :: r =>
          if c == '"' then
            match parseStrBody r with
            | some (k, r1) =>
                (match skipWs r1 with
                 | [] => none
                 | c2 :: r2 =>
                     if c2 == ':' then
                       match parseVal fuel r2 with
                       | some (v, r3) =>
                           (match skipWs r3 with
                            | [] => none
                            | c3 :: r4 =>
                                if c3 == ',' then
                                  match parseMembers fuel r4 with
                                  | some (ms, r5) => some ((k, v) :: ms, r5)
                                  | none => none
                                else if c3 == '}' then some ([(k, v)], r4)
                                else none)
                       | none => none
                     else none)
            | none => none
          else none

end

/-- Serialise a value, as `json.dump(data, f, indent=2, ensure_ascii=False)`
stores it (modulo inter-token whitespace, which loading ignores). -/
def json_dumps (data : Json) : List Char := dump data

/-- Parse a complete document, as `json.load` does: one value, then nothing
but whitespace. -/
def json_loads (s : List Char) : Option Json :=
  match parseVal (s.length + 1) s with
  | some (v, r) => if skipWs r = [] then some v else none
  | none => none

/-- Embedding of `src/utils.py::save_json`: the filesystem maps paths to file
texts, and writing replaces the file at `filepath` with the serialised data
(`os.makedirs` only prepares directories). -/
def save_json (fs : List Char → Option (List Char)) (data : Json)
    (filepath : List Char) : List Char → Option (List Char) :=
  fun p => if p = filepath then some (json_dumps data) else fs p

/-- Embedding of `src/utils.py::load_json`: read the file at `filepath` and
parse it. -/
def load_json (fs : List Char → Option (List Char)) (filepath : List Char) :
    Option Json :=
  (fs filepath).bind json_loads

end PyJson

namespace Config

/-- `Config.CONTENT_DIR`. -/
def CONTENT_DIR : List Char := "data/generated_content".data

/-- `Config.CAMPAIGNS_DIR`. -/
def CAMPAIGNS_DIR : List Char := "data/campaigns".data

/-- `Config.ANALYTICS_DIR`. -/
def ANALYTICS_DIR : List Char := "data/analytics".data

/-- Path of the content artifact written by `main.py::run_pipeline`:
`f"{config.CONTENT_DIR}/{sanitize_filename(blog_data['title'])}_{campaign_id}.json"`. -/
def contentPath (sanitizedTitle campaign_id : List Char) : List Char :=
  CONTENT_DIR ++ '/' :: (sanitizedTitle ++ '_' :: (campaign_id ++ ".json".data))

/-- Path of the campaign log artifact: `f"{config.CAMPAIGNS_DIR}/{campaign_id}_log.json"`. -/
def campaignLogPath (campaign_id : List Char) : List Char :=
  CAMPAIGNS_DIR ++ '/' :: (campaign_id ++ "_log.json".data)

/-- Path of the performance artifact:
`f"{config.ANALYTICS_DIR}/{campaign_id}_performance.json"`. -/
def performancePath (campaign_id : List Char) : List Char :=
  ANALYTICS_DIR ++ '/' :: (campaign_id ++ "_performance.json".data)

/-- Path of the summary artifact: `f"{config.ANALYTICS_DIR}/{campaign_id}_summary.json"`. -/
def summaryPath (campaign_id : List Char) : List Char :=
  ANALYTICS_DIR ++ '/' :: (campaign_id ++ "_summary.json".data)

/-- Path of the improvements artifact:
`f"{config.ANALYTICS_DIR}/{campaign_id}_improvements.json"`. -/
def improvementsPath (campaign_id : List Char) : List Char :=
  ANALYTICS_DIR ++ '/' :: (campaign_id ++ "_improvements.json".data)

end Config

namespace MainPipeline

open PyJson

/-- The dictionary literal `main.py::run_pipeline` (and the dashboard's
`run_pipeline_async`) saves as the content artifact.  Both write the
`'variations'` key unconditionally. -/
def contentArtifact (campaign_id topic : List Char) (blog newsletters : Json)
    (variations : List Json) (created_at : List Char) : Json :=
  .obj [("campaign_id".data, .str campaign_id),
        ("topic".data, .str topic),
        ("blog".data, blog),
        ("newsletters".data, newsletters),
        ("variations".data, .arr variations),
        ("created_at".data, .str created_at)]

/-- The values produced by the generation stages of one run, before any
persistence; `variationsGen` is what `generate_variations` returns when it is
called at all. -/
structure StageOutputs where
  campaign_id : List Char
  topic : List Char
  blogTitle : List Char
  blog : Json
  newsletters : Json
  variationsGen : List Json
  campaignLog : Json
  performance : Json
  summary : Json
  improvements : Json
  created_at : List Char

/-- Embedding of the artifact writes of `main.py::run_pipeline` (lines 46-68
and 156-167), in execution order: the content artifact (whose `variations`
value is the generated list when variations were requested and `[]` otherwise,
since `variations = []` is only reassigned under `if generate_variations:`),
then the campaign log, performance and summary artifacts, and finally the
improvements artifact only when `generate_variations` was requested.
`dashboard/app.py::run_pipeline_async` performs the same writes. -/
def run_pipeline_writes (isalnum : Char → Bool) (generate_variations : Bool)
    (so : StageOutputs) : List (List Char × Json) :=
  let variations := if generate_variations then so.variationsGen else []
  let contentFile :=
    Config.contentPath (Utils.sanitize_filename isalnum so.blogTitle) so.campaign_id
  let writes :=
    [(contentFile,
      contentArtifact so.campaign_id so.topic so.blog so.newsletters variations so.created_at),
     (Config.campaignLogPath so.campaign_id, so.campaignLog),
     (Config.performancePath so.campaign_id, so.performance),
     (Config.summaryPath so.campaign_id, so.summary)]
  if generate_variations then
    writes ++ [(Config.improvementsPath so.campaign_id, so.improvements)]
  else writes

end MainPipeline

namespace Dashboard

open PyJson

/-- What `dashboard/app.py::campaign_detail` returns: the
`("Campaign not found", 404)` tuple, or the rendered template over the log and
the optional performance and summary artifacts. -/
inductive DetailResponse where
  | notFound404
  | page (campaign : Json) (performance : Option Json) (summary : Option Json)

/-- Embedding of `dashboard/app.py::campaign_detail`: an `os.path.exists`
check on the log file decides 404 before anything is opened; the performance
and summary files are each loaded only if present.  The filesystem is modelled
as a map from paths to the parsed contents of the files that exist. -/
def campaign_detail (fs : List Char → Option Json) (campaign_id : List Char) :
    DetailResponse :=
  match fs (Config.campaignLogPath campaign_id) with
  | none => .notFound404
  | some campaign =>
      .page campaign (fs (Config.performancePath campaign_id))
        (fs (Config.summaryPath campaign_id))

/-- What `dashboard/app.py::api_performance` returns: the
`jsonify({'error': ...}), 404` pair, or the performance document. -/
inductive PerfResponse where
  | err404
  | ok (performance : Json)

/-- Embedding of `dashboard/app.py::api_performance`: 404 when the performance
artifact does not exist, else its contents. -/
def api_performance (fs : List Char → Option Json) (campaign_id : List Char) :
    PerfResponse :=
  match fs (Config.performancePath campaign_id) with
  | none => .err404
  | some p => .ok p

end Dashboard

namespace PyJson

/-- A rest-of-input that cannot extend a digit run: empty, or headed by a
non-digit. -/
def noDigitHead : List Char → Bool
  | [] => true
  | c :: _ => !(isDigitChar c)

/-- A rest-of-input that cannot extend a number token: empty, or headed by
neither a digit nor a decimal point.  Every continuation the serialiser
produces (comma, closing bracket or brace, end of input) satisfies it. -/
def numBreak : List Char → Bool
  | [] => true
  | c :: _ => !(isDigitChar c || c == '.')

/-- Key lookup in an object value (first occurrence), `None` elsewhere. -/
def lookupKey (j : Json) (key : List Char) : Option Json :=
  match j with
  | .obj ms => ms.lookup key
  | _ => none

end PyJson

namespace PerformanceAnalyzer

/-- What "rounded to 4 decimal places" means for a stored metric `x` obtained
from the raw rate `raw`: `x` is an integer multiple of `1/10000` and within
half of one such step of `raw`. -/
def roundedTo4 (x raw : ℚ) : Prop :=
  (∃ k : ℤ, x = (k : ℚ) / 10000) ∧ |x - raw| ≤ 1 / 20000

/-- A concrete draw inside every range of `DrawInRange`. -/
def sampleDraw : PersonaDraw :=
  { sent := 90, delivered := 80, base_open := 1 / 5, base_click := 1 / 10,
    unsub := 1 / 200, bounce := 1 / 50 }

/-- The draw oracle returning `sampleDraw` for every persona. -/
def sampleDraws : String → PersonaDraw := fun _ => sampleDraw

end PerformanceAnalyzer

namespace CRMIntegration

/-- A contact whose persona tag is not a key of the persona registry. -/
def strayContact : Contact := { persona := some "marketing", payload := 0 }

/-- A response oracle answering HTTP 401 to every send. -/
def always401 : String → HttpOutcome := fun _ => .status 401

end CRMIntegration

namespace Utils

/-- Forty-nine `a`s followed by `" b"`: sanitising keeps all 51 characters,
strips nothing on the right, and the 50-character cut then ends in a space. -/
def truncationInput : List Char := List.replicate 49 'a' ++ " b".data

end Utils

namespace MainPipeline

/-- A concrete run's stage outputs, for evaluating the pipeline's writes. -/
def sampleOutputs : StageOutputs :=
  { campaign_id := "campaign_20250101_000000".data
    topic := "automation".data
    blogTitle := "A Title".data
    blog := .null
    newsletters := .null
    variationsGen := [.str "v1".data]
    campaignLog := .null
    performance := .null
    summary := .null
    improvements := .null
    created_at := "2025-01-01T00:00:00".data }

end MainPipeline

/-!
Theorems.  Each claim of the specification gets one theorem (plus, where the
claim fails on the code, a closed counterexample, and where a theorem carries
hypotheses, a closed witness instantiating it).
-/

/-- C10: the log entry built by `CRMIntegration.log_campaign` has status
`"simulated"` exactly when its mode is `"mock"`, status `"sent"` exactly when
its mode is `"production"`, both decided solely by the client's `mock_mode`
flag at logging time, and its personas list equals the key list of the input's
newsletters map. -/
theorem log_campaign_status_mode_personas (st : CRMIntegration.CRMState)
    (cd : CRMIntegration.CampaignData) (now : String) :
    ((CRMIntegration.log_campaign st cd now).status = "simulated" ↔
      (CRMIntegration.log_campaign st cd now).mode = "mock") ∧
    ((CRMIntegration.log_campaign st cd now).status = "sent" ↔
      (CRMIntegration.log_campaign st cd now).mode = "production") ∧
    ((CRMIntegration.log_campaign st cd now).status = "simulated" ↔
      st.mock_mode = true) ∧
    (CRMIntegration.log_campaign st cd now).personas =
      cd.newsletters.map Prod.fst := by
  obtain ⟨b⟩ := st
  cases b <;> simp [CRMIntegration.log_campaign]

/-- C8: when the campaign log artifact for an id does not exist the dashboard
detail view answers the 404 response, and when the performance artifact does
not exist the performance API answers its 404 response; both embeddings are
total functions, so no exception is raised. -/
theorem dashboard_missing_artifact_404 (fs : List Char → Option PyJson.Json)
    (campaign_id : List Char) :
    (fs (Config.campaignLogPath campaign_id) = none →
      Dashboard.campaign_detail fs campaign_id = .notFound404) ∧
    (fs (Config.performancePath campaign_id) = none →
      Dashboard.api_performance fs campaign_id = .err404) := by
  constructor <;> intro h <;>
    simp [Dashboard.campaign_detail, Dashboard.api_performance, h]

/-- Witness for C8 at the empty filesystem and a concrete id. -/
theorem dashboard_missing_artifact_404_witness :
    Dashboard.campaign_detail (fun _ => none) ("campaign_x".data) = .notFound404 ∧
    Dashboard.api_performance (fun _ => none) ("campaign_x".data) = .err404 :=
  ⟨(dashboard_missing_artifact_404 (fun _ => none) ("campaign_x".data)).1 rfl,
   (dashboard_missing_artifact_404 (fun _ => none) ("campaign_x".data)).2 rfl⟩

/-- C3 counterexample: a live-mode client (`mock_mode = false`) whose send
request is answered HTTP 401 returns the mock distribution from
`send_campaign`, but its `mock_mode` flag is still `false` afterwards — the
method contains no assignment to the flag, so the claimed switch to mock mode
for the remainder of the run does not happen. -/
theorem send_campaign_401_leaves_flag_unset :
    CRMIntegration.send_campaign { mock_mode := false } true ["founders"]
        CRMIntegration.always401 =
      ({ mock_mode := false }, .mockDistribution) := by
  decide

/-- C3 amended: `send_campaign` never changes `mock_mode`; a 401/403 inside
the live send loop makes the whole call fall back to the mock distribution for
that campaign only.  The persistent flip to mock mode exists only in
`create_or_update_contact`, which sets the flag exactly on a 401 response. -/
theorem send_campaign_fallback_amended (st : CRMIntegration.CRMState)
    (probeOk : Bool) (personas : List String)
    (responses : String → CRMIntegration.HttpOutcome) :
    (CRMIntegration.send_campaign st probeOk personas responses).1 = st ∧
    (CRMIntegration.sendLoop responses personas = none →
      (CRMIntegration.send_campaign st probeOk personas responses).2 =
        .mockDistribution) ∧
    (∀ resp : CRMIntegration.HttpOutcome,
      (CRMIntegration.create_or_update_contact { mock_mode := false } resp).1.mock_mode
          = true ↔ resp = .status 401) := by
  refine ⟨?_, ?_, ?_⟩
  · unfold CRMIntegration.send_campaign
    cases hm : st.mock_mode <;> cases probeOk <;>
        cases hl : CRMIntegration.sendLoop responses personas <;>
      simp [CRMIntegration.check_marketing_access, hm, hl]
  · intro hnone
    unfold CRMIntegration.send_campaign
    cases hm : st.mock_mode <;> cases probeOk <;>
      simp [CRMIntegration.check_marketing_access, hm, hnone]
  · intro resp
    cases resp with
    | status code =>
        by_cases h409 : code = 409
        · subst h409; simp [CRMIntegration.create_or_update_contact]
        · by_cases h401 : code = 401
          · subst h401; simp [CRMIntegration.create_or_update_contact]
          · by_cases h400 : 400 ≤ code <;>
              simp [CRMIntegration.create_or_update_contact, h409, h401, h400]
    | exn => simp [CRMIntegration.create_or_update_contact]

/-- Witness for the amended C3 at a concrete state, persona list and 401
oracle. -/
theorem send_campaign_fallback_amended_witness :
    (CRMIntegration.send_campaign { mock_mode := false } true ["creatives"]
        CRMIntegration.always401).1 = { mock_mode := false } ∧
    (CRMIntegration.send_campaign { mock_mode := false } true ["creatives"]
        CRMIntegration.always401).2 = .mockDistribution ∧
    (CRMIntegration.create_or_update_contact { mock_mode := false }
        (.status 401)).1.mock_mode = true :=
  ⟨(send_campaign_fallback_amended { mock_mode := false } true ["creatives"]
      CRMIntegration.always401).1,
   (send_campaign_fallback_amended { mock_mode := false } true ["creatives"]
      CRMIntegration.always401).2.1 (by decide),
   ((send_campaign_fallback_amended { mock_mode := false } true ["creatives"]
      CRMIntegration.always401).2.2 (.status 401)).mpr rfl⟩

/-- A list is a (boolean) prefix of itself followed by anything. -/
theorem isPrefixOf_append_self (pre rest : List Char) :
    pre.isPrefixOf (pre ++ rest) = true := by
  induction pre with
  | nil => simp
  | cons c cs ih => simp [List.isPrefixOf_cons₂, ih]

/-- Cancelling a common prefix under the boolean prefix test. -/
theorem isPrefixOf_append_both (pre b x : List Char) :
    (pre ++ b).isPrefixOf (pre ++ x) = b.isPrefixOf x := by
  induction pre with
  | nil => simp
  | cons c cs ih => simp [List.isPrefixOf_cons₂, ih]

/-- A list is a (boolean) suffix of anything followed by itself. -/
theorem isSuffixOf_append_self (suf pre : List Char) :
    suf.isSuffixOf (pre ++ suf) = true := by
  simp [List.isSuffixOf, isPrefixOf_append_self]

/-- Taking everything except a suffix recovers the front. -/
theorem take_append_sub (b suf : List Char) :
    (b ++ suf).take ((b ++ suf).length - suf.length) = b := by
  have h : (b ++ suf).length - suf.length = b.length := by
    simp [List.length_append]
  rw [h, List.take_left]

/-- The two fence markers differ by the `json` tag. -/
theorem fenceJson_decomp : fenceJson = fenceBare ++ "json".data := rfl

/-- C6 counterexample: a response fenced with bare triple backticks keeps its
opening fence after `clean_response` — only the closing fence is removed, so
the claim that any fenced response loses both markers fails on this input. -/
theorem clean_response_keeps_bare_opening_fence :
    ContentGenerator.clean_response ("```\nx\n```".data) = ("```\nx\n".data) ∧
    fenceBare.isPrefixOf (ContentGenerator.clean_response ("```\nx\n```".data)) =
      true := by
  decide

/-- C6 amended: `clean_response` removes the opening fence only when it is the
tagged marker `"```json"`, always removes one trailing `"```"`, and otherwise
returns the text unchanged (the performance analyzer's copy additionally
strips surrounding whitespace).  In particular a response fenced as
`"```json...```"` comes back as its body, while a bare `"```...```"` fence
keeps its opening marker. -/
theorem clean_response_amended (body raw : List Char) :
    (ContentGenerator.clean_response (fenceJson ++ body ++ fenceBare) = body) ∧
    (PerformanceAnalyzer.clean_response (fenceJson ++ body ++ fenceBare) =
      Utils.pyStrip body) ∧
    (fenceJson.isPrefixOf raw = false → fenceBare.isSuffixOf raw = false →
      ContentGenerator.clean_response raw = raw) ∧
    (("json".data).isPrefixOf (body ++ fenceBare) = false →
      ContentGenerator.clean_response (fenceBare ++ body ++ fenceBare) =
        fenceBare ++ body) := by
  have hcg : ContentGenerator.clean_response (fenceJson ++ body ++ fenceBare) =
      body := by
    unfold ContentGenerator.clean_response
    rw [List.append_assoc, isPrefixOf_append_self]
    simp only [if_true, List.drop_left, isSuffixOf_append_self, take_append_sub]
  refine ⟨hcg, ?_, ?_, ?_⟩
  · have hsame : PerformanceAnalyzer.clean_response (fenceJson ++ body ++ fenceBare) =
        Utils.pyStrip (ContentGenerator.clean_response (fenceJson ++ body ++ fenceBare)) :=
      rfl
    rw [hsame, hcg]
  · intro h1 h2
    unfold ContentGenerator.clean_response
    simp [h1, h2]
  · intro h
    unfold ContentGenerator.clean_response
    rw [List.append_assoc, fenceJson_decomp, isPrefixOf_append_both, h]
    simp only [if_false, Bool.false_eq_true, ← List.append_assoc,
      isSuffixOf_append_self, if_true, take_append_sub]

/-- Witness for the amended C6: unfenced text passes through unchanged, and a
bare-fenced body keeps its opening marker, at concrete inputs. -/
theorem clean_response_amended_witness :
    ContentGenerator.clean_response ("hello".data) = "hello".data ∧
    ContentGenerator.clean_response (fenceBare ++ "x".data ++ fenceBare) =
      fenceBare ++ "x".data :=
  ⟨(clean_response_amended ("x".data) ("hello".data)).2.2.1 (by decide) (by decide),
   (clean_response_amended ("x".data) ("hello".data)).2.2.2 (by decide)⟩

/-- Right-stripping only removes elements: membership is preserved downward. -/
theorem mem_of_mem_pyRstrip {c : Char} {l : List Char}
    (h : c ∈ Utils.pyRstrip l) : c ∈ l := by
  unfold Utils.pyRstrip at h
  have h1 : c ∈ l.reverse.dropWhile Utils.pyIsSpace := List.mem_reverse.mp h
  exact List.mem_reverse.mp ((List.dropWhile_sublist Utils.pyIsSpace).subset h1)

/-- Every character of a sanitised name passed the sanitiser's filter. -/
theorem sanitize_filename_mem {isalnum : Char → Bool} {text : List Char}
    {c : Char} (hc : c ∈ Utils.sanitize_filename isalnum text) :
    (isalnum c || c == ' ' || c == '-' || c == '_') = true := by
  unfold Utils.sanitize_filename at hc
  have h1 := mem_of_mem_pyRstrip ((List.take_sublist _ _).subset hc)
  exact (List.mem_filter.mp h1).2

/-- C2 counterexample: sanitising is not idempotent.  On 49 `a`s followed by
`" b"`, the first pass keeps all 51 characters, strips nothing (the text ends
in `b`), and the 50-character cut then ends in a space; the second pass strips
that space, giving a strictly shorter result. -/
theorem sanitize_filename_not_idempotent :
    Utils.sanitize_filename Char.isAlphanum
        (Utils.sanitize_filename Char.isAlphanum Utils.truncationInput) ≠
      Utils.sanitize_filename Char.isAlphanum Utils.truncationInput := by
  decide

/-- C2 amended: the output of `sanitize_filename` contains only characters the
classifier accepts plus spaces, hyphens and underscores, and has length at
most 50; applying it twice equals applying it once whenever the first result
carries no trailing whitespace (equivalently, whenever the 50-character
truncation did not cut just after a space) — without that proviso idempotence
fails, as `sanitize_filename_not_idempotent` shows. -/
theorem sanitize_filename_amended (isalnum : Char → Bool) (text : List Char) :
    (∀ c ∈ Utils.sanitize_filename isalnum text,
        isalnum c = true ∨ c = ' ' ∨ c = '-' ∨ c = '_') ∧
    (Utils.sanitize_filename isalnum text).length ≤ 50 ∧
    (Utils.pyRstrip (Utils.sanitize_filename isalnum text) =
        Utils.sanitize_filename isalnum text →
      Utils.sanitize_filename isalnum (Utils.sanitize_filename isalnum text) =
        Utils.sanitize_filename isalnum text) := by
  refine ⟨?_, ?_, ?_⟩
  · intro c hc
    have h := sanitize_filename_mem hc
    simpa [Bool.or_eq_true, beq_iff_eq, or_assoc] using h
  · exact List.length_take_le _ _
  · intro h
    have hfilter :
        (Utils.sanitize_filename isalnum text).filter
            (fun c => isalnum c || c == ' ' || c == '-' || c == '_') =
          Utils.sanitize_filename isalnum text :=
      List.filter_eq_self.mpr fun c hc => sanitize_filename_mem hc
    have hlen : (Utils.sanitize_filename isalnum text).length ≤ 50 :=
      List.length_take_le _ _
    calc Utils.sanitize_filename isalnum (Utils.sanitize_filename isalnum text)
        = (Utils.pyRstrip ((Utils.sanitize_filename isalnum text).filter
            (fun c => isalnum c || c == ' ' || c == '-' || c == '_'))).take 50 := rfl
      _ = (Utils.pyRstrip (Utils.sanitize_filename isalnum text)).take 50 := by
            rw [hfilter]
      _ = (Utils.sanitize_filename isalnum text).take 50 := by rw [h]
      _ = Utils.sanitize_filename isalnum text := List.take_of_length_le hlen

/-- Witness for the amended C2 at a short concrete input whose result has no
trailing whitespace. -/
theorem sanitize_filename_amended_witness :
    Utils.sanitize_filename Char.isAlphanum
        (Utils.sanitize_filename Char.isAlphanum ("report 2024!".data)) =
      Utils.sanitize_filename Char.isAlphanum ("report 2024!".data) ∧
    (Utils.sanitize_filename Char.isAlphanum ("report 2024!".data)).length ≤ 50 :=
  ⟨(sanitize_filename_amended Char.isAlphanum ("report 2024!".data)).2.2 (by decide),
   (sanitize_filename_amended Char.isAlphanum ("report 2024!".data)).2.1⟩

/-- One step of the segmentation fold, on groups in registry/filter form: the
contact is appended to exactly the groups keyed by its tag when the tag is a
registry key, and to none otherwise. -/
theorem addContact_filter_form (keys : List String)
    (acc : String → List CRMIntegration.Contact) (c : CRMIntegration.Contact) :
    CRMIntegration.addContact (keys.map fun p => (p, acc p)) c =
      keys.map fun p =>
        (p, acc p ++ if CRMIntegration.contactPersona c = p then [c] else []) := by
  unfold CRMIntegration.addContact
  dsimp only
  have hfst : List.map Prod.fst (List.map (fun p => (p, acc p)) keys) = keys := by
    induction keys with
    | nil => rfl
    | cons k ks ih => simp only [List.map_cons, ih]
  rw [hfst]
  split
  · rw [List.map_map]
    apply List.map_congr_left
    intro p _
    by_cases hpc : p = CRMIntegration.contactPersona c
    · subst hpc
      simp [Function.comp]
    · have hcp : ¬(CRMIntegration.contactPersona c = p) := fun h => hpc h.symm
      simp [Function.comp, hpc, hcp]
  · rename_i hcont
    have hmem : CRMIntegration.contactPersona c ∉ keys := fun hm =>
      hcont (List.elem_eq_true_of_mem hm)
    apply List.map_congr_left
    intro p hp
    have hcp : ¬(CRMIntegration.contactPersona c = p) := fun h => hmem (h ▸ hp)
    simp [hcp]

/-- The segmentation fold in closed form: starting from groups
`(p, acc p)` over any key list, folding a contact list appends to each group
exactly the contacts whose effective tag is that group's key. -/
theorem foldl_addContact_filter (cs : List CRMIntegration.Contact)
    (keys : List String) (acc : String → List CRMIntegration.Contact) :
    cs.foldl CRMIntegration.addContact (keys.map fun p => (p, acc p)) =
      keys.map fun p =>
        (p, acc p ++ cs.filter fun c => CRMIntegration.contactPersona c = p) := by
  induction cs generalizing acc with
  | nil => simp
  | cons c cs ih =>
      rw [List.foldl_cons, addContact_filter_form keys acc c,
        ih fun p => acc p ++ if CRMIntegration.contactPersona c = p then [c] else []]
      apply List.map_congr_left
      intro p _
      by_cases hc : CRMIntegration.contactPersona c = p <;>
        simp [List.filter_cons, hc]

/-- The public form of the fold characterisation, at the registry's initial
empty groups. -/
theorem segment_contacts_eq_filter (contacts : List CRMIntegration.Contact) :
    CRMIntegration.segment_contacts contacts =
      Config.personasKeys.map fun p =>
        (p, contacts.filter fun c => CRMIntegration.contactPersona c = p) := by
  have h := foldl_addContact_filter contacts Config.personasKeys fun _ => []
  simpa [CRMIntegration.segment_contacts] using h

/-- C9: for every contact list, including the empty one, the segmentation's
key list is exactly the persona registry (`founders`, `creatives`,
`operations`) in order, and any persona that matched no contact keeps an empty
group. -/
theorem segment_contacts_keys_exact (contacts : List CRMIntegration.Contact) :
    ((CRMIntegration.segment_contacts contacts).map Prod.fst =
      Config.personasKeys) ∧
    (∀ pg ∈ CRMIntegration.segment_contacts contacts,
      (∀ c ∈ contacts, CRMIntegration.contactPersona c ≠ pg.1) → pg.2 = []) := by
  constructor
  · rw [segment_contacts_eq_filter]
    induction Config.personasKeys with
    | nil => rfl
    | cons k ks ih => simp only [List.map_cons, ih]
  · intro pg hpg hnone
    rw [segment_contacts_eq_filter] at hpg
    obtain ⟨p, _, rfl⟩ := List.mem_map.mp hpg
    exact List.filter_eq_nil_iff.mpr fun c hc => by
      simpa using hnone c hc

/-- Witness for C9 on a one-contact list: the keys are the registry and the
group of a persona with no matching contact is empty. -/
theorem segment_contacts_keys_exact_witness :
    (CRMIntegration.segment_contacts
        [{ persona := some "creatives", payload := 5 }]).map Prod.fst =
      Config.personasKeys ∧
    (("operations", ([] : List CRMIntegration.Contact)) :
        String × List CRMIntegration.Contact).2 = [] :=
  ⟨(segment_contacts_keys_exact [{ persona := some "creatives", payload := 5 }]).1,
   (segment_contacts_keys_exact [{ persona := some "creatives", payload := 5 }]).2
     ("operations", []) (by decide) (by decide)⟩

/-- C4 counterexample: a contact whose persona tag (`"marketing"`) is not in
the registry is dropped by `segment_contacts` — every group comes back empty,
so the contact appears in no output group instead of the default persona's. -/
theorem segment_contacts_drops_unknown_tag :
    CRMIntegration.segment_contacts [CRMIntegration.strayContact] =
      [("founders", []), ("creatives", []), ("operations", [])] := by
  decide

/-- C4 amended: `segment_contacts` sends each contact to the group of its
effective tag (`contact.get('persona', 'founders')`, so only a missing tag
defaults to the `founders` group); a contact whose tag is a registry key lands
in exactly one group, while a contact with an unknown tag is dropped and
appears in no group. -/
theorem segment_contacts_amended (contacts : List CRMIntegration.Contact) :
    (CRMIntegration.segment_contacts contacts =
      Config.personasKeys.map fun p =>
        (p, contacts.filter fun c => CRMIntegration.contactPersona c = p)) ∧
    (∀ c ∈ contacts, CRMIntegration.contactPersona c ∈ Config.personasKeys →
      ((CRMIntegration.segment_contacts contacts).countP fun pg =>
          decide (c ∈ pg.2)) = 1) ∧
    (∀ c ∈ contacts, CRMIntegration.contactPersona c ∉ Config.personasKeys →
      ((CRMIntegration.segment_contacts contacts).countP fun pg =>
          decide (c ∈ pg.2)) = 0) := by
  refine ⟨segment_contacts_eq_filter contacts, ?_, ?_⟩
  · intro c hc hmem
    rw [segment_contacts_eq_filter]
    simp only [Config.personasKeys, List.mem_cons, List.mem_singleton,
      List.not_mem_nil, or_false] at hmem
    rcases hmem with h | h | h <;>
      simp [Config.personasKeys, List.countP_cons, List.mem_filter, hc, h]
  · intro c hc hmem
    rw [segment_contacts_eq_filter]
    simp only [Config.personasKeys, List.mem_cons, List.mem_singleton,
      List.not_mem_nil, or_false, not_or] at hmem
    obtain ⟨h1, h2, h3⟩ := hmem
    simp [Config.personasKeys, List.countP_cons, List.mem_filter, hc, h1, h2, h3]

/-- Witness for the amended C4: a tagged contact lands in exactly one group
and a stray-tagged contact in none, at concrete lists. -/
theorem segment_contacts_amended_witness :
    ((CRMIntegration.segment_contacts
        [{ persona := some "operations", payload := 7 }]).countP fun pg =>
      decide (({ persona := some "operations", payload := 7 } :
        CRMIntegration.Contact) ∈ pg.2)) = 1 ∧
    ((CRMIntegration.segment_contacts [CRMIntegration.strayContact]).countP
        fun pg => decide (CRMIntegration.strayContact ∈ pg.2)) = 0 :=
  ⟨(segment_contacts_amended [{ persona := some "operations", payload := 7 }]).2.1
      { persona := some "operations", payload := 7 } (by decide) (by decide),
   (segment_contacts_amended [CRMIntegration.strayContact]).2.2
      CRMIntegration.strayContact (by decide) (by decide)⟩

/-- Rounding to 4 places is monotone. -/
theorem round4_mono {x y : ℚ} (h : x ≤ y) :
    PerformanceAnalyzer.round4 x ≤ PerformanceAnalyzer.round4 y := by
  unfold PerformanceAnalyzer.round4
  have hf : ⌊x * 10000 + 1 / 2⌋ ≤ ⌊y * 10000 + 1 / 2⌋ :=
    Int.floor_le_floor (by linarith)
  have hc : ((⌊x * 10000 + 1 / 2⌋ : ℤ) : ℚ) ≤ ((⌊y * 10000 + 1 / 2⌋ : ℤ) : ℚ) :=
    Int.cast_le.mpr hf
  linarith

/-- Rounding to 4 places preserves nonnegativity. -/
theorem round4_nonneg {x : ℚ} (h : 0 ≤ x) : 0 ≤ PerformanceAnalyzer.round4 x := by
  unfold PerformanceAnalyzer.round4
  have h0 : (0 : ℤ) ≤ ⌊x * 10000 + 1 / 2⌋ := by
    apply Int.le_floor.mpr
    push_cast
    linarith
  have hc : (0 : ℚ) ≤ ((⌊x * 10000 + 1 / 2⌋ : ℤ) : ℚ) := Int.cast_nonneg.mpr h0
  linarith

/-- The cap value `0.95` is a fixed point of the rounding. -/
theorem round4_95 : PerformanceAnalyzer.round4 (95 / 100) = 95 / 100 := by
  unfold PerformanceAnalyzer.round4
  have h : ⌊(95 : ℚ) / 100 * 10000 + 1 / 2⌋ = 9500 := by
    rw [Int.floor_eq_iff]
    constructor <;> norm_num
  rw [h]
  norm_num

/-- Rounding lands on a multiple of `1/10000` within half a step of the
input. -/
theorem round4_step (x : ℚ) :
    (∃ k : ℤ, PerformanceAnalyzer.round4 x = (k : ℚ) / 10000) ∧
    |PerformanceAnalyzer.round4 x - x| ≤ 1 / 20000 := by
  constructor
  · exact ⟨⌊x * 10000 + 1 / 2⌋, rfl⟩
  · unfold PerformanceAnalyzer.round4
    have h1 := Int.floor_le (x * 10000 + 1 / 2)
    have h2 := Int.lt_floor_add_one (x * 10000 + 1 / 2)
    rw [abs_le]
    constructor <;> linarith

/-- The per-persona open-rate multipliers all lie in `(0, 1.2]`. -/
theorem openMult_bounds (p : String) :
    0 < PerformanceAnalyzer.openMult p ∧ PerformanceAnalyzer.openMult p ≤ 12 / 10 := by
  unfold PerformanceAnalyzer.openMult
  split_ifs <;> norm_num

/-- The per-persona click-rate multipliers all lie in `(0, 1.3]`. -/
theorem clickMult_bounds (p : String) :
    0 < PerformanceAnalyzer.clickMult p ∧ PerformanceAnalyzer.clickMult p ≤ 13 / 10 := by
  unfold PerformanceAnalyzer.clickMult
  split_ifs <;> norm_num

/-- The capped open rate is nonnegative (given the base range) and below the
cap. -/
theorem openRate_bounds (p : String) (d : PerformanceAnalyzer.PersonaDraw)
    (h1 : 18 / 100 ≤ d.base_open) :
    0 ≤ PerformanceAnalyzer.openRate p d ∧
    PerformanceAnalyzer.openRate p d ≤ 95 / 100 := by
  constructor
  · apply le_min
    · exact mul_nonneg (by linarith) (le_of_lt (openMult_bounds p).1)
    · norm_num
  · exact min_le_right _ _

/-- The capped click rate is nonnegative and at most `0.8` of the capped open
rate. -/
theorem clickRate_bounds (p : String) (d : PerformanceAnalyzer.PersonaDraw)
    (h1 : 18 / 100 ≤ d.base_open) (h2 : 5 / 100 ≤ d.base_click) :
    0 ≤ PerformanceAnalyzer.clickRate p d ∧
    PerformanceAnalyzer.clickRate p d ≤
      PerformanceAnalyzer.openRate p d * (8 / 10) ∧
    PerformanceAnalyzer.clickRate p d ≤ PerformanceAnalyzer.openRate p d := by
  have ho := openRate_bounds p d h1
  refine ⟨?_, min_le_right _ _, ?_⟩
  · apply le_min
    · exact mul_nonneg (by linarith) (le_of_lt (clickMult_bounds p).1)
    · exact mul_nonneg ho.1 (by norm_num)
  · have hck : PerformanceAnalyzer.clickRate p d ≤
        PerformanceAnalyzer.openRate p d * (8 / 10) := min_le_right _ _
    nlinarith [ho.1, hck]

/-- C1: every per-persona record of `simulate_performance_data` has an integer
`sent` in `[80,100]`, an integer `delivered` between `int(0.85*sent)` and
`sent`, rates with `0 ≤ clicked ≤ opened ≤ 0.95` after rounding and
`click_rate ≤ 0.8 * open_rate` before rounding, and all four fractional
metrics rounded to 4 decimal places of their raw draws. -/
theorem simulate_performance_data_bounds (campaign_id : String)
    (personas : List String) (draws : String → PerformanceAnalyzer.PersonaDraw)
    (hd : ∀ p, PerformanceAnalyzer.DrawInRange (draws p)) :
    ∀ pm ∈ PerformanceAnalyzer.simulate_performance_data campaign_id personas draws,
      (80 ≤ pm.2.sent ∧ pm.2.sent ≤ 100) ∧
      (PerformanceAnalyzer.pyInt ((pm.2.sent : ℚ) * (85 / 100)) ≤ pm.2.delivered ∧
        pm.2.delivered ≤ pm.2.sent) ∧
      (0 ≤ pm.2.clicked ∧ pm.2.clicked ≤ pm.2.opened ∧ pm.2.opened ≤ 95 / 100) ∧
      PerformanceAnalyzer.clickRate pm.1 (draws pm.1) ≤
        (8 / 10) * PerformanceAnalyzer.openRate pm.1 (draws pm.1) ∧
      PerformanceAnalyzer.roundedTo4 pm.2.opened
        (PerformanceAnalyzer.openRate pm.1 (draws pm.1)) ∧
      PerformanceAnalyzer.roundedTo4 pm.2.clicked
        (PerformanceAnalyzer.clickRate pm.1 (draws pm.1)) ∧
      PerformanceAnalyzer.roundedTo4 pm.2.unsubscribed (draws pm.1).unsub ∧
      PerformanceAnalyzer.roundedTo4 pm.2.bounced (draws pm.1).bounce := by
  intro pm hpm
  simp only [PerformanceAnalyzer.simulate_performance_data, List.mem_map] at hpm
  obtain ⟨p, _, rfl⟩ := hpm
  obtain ⟨hs1, hs2, hdel1, hdel2, ho1, _, hc1, _, _, _, _, _⟩ := hd p
  have hor := openRate_bounds p (draws p) ho1
  have hcr := clickRate_bounds p (draws p) ho1 hc1
  refine ⟨⟨hs1, hs2⟩, ⟨hdel1, hdel2⟩, ⟨?_, ?_, ?_⟩, ?_, ?_, ?_, ?_, ?_⟩
  · exact round4_nonneg hcr.1
  · exact round4_mono hcr.2.2
  · have := round4_mono hor.2
    rwa [round4_95] at this
  · rw [mul_comm]
    exact hcr.2.1
  · exact round4_step _
  · exact round4_step _
  · exact round4_step _
  · exact round4_step _

/-- The concrete sample draw satisfies every range constraint. -/
theorem sampleDraw_in_range :
    PerformanceAnalyzer.DrawInRange PerformanceAnalyzer.sampleDraw := by
  unfold PerformanceAnalyzer.DrawInRange PerformanceAnalyzer.sampleDraw
    PerformanceAnalyzer.pyInt
  have hf : ⌊(90 : ℚ) * (85 / 100)⌋ = 76 := by
    rw [Int.floor_eq_iff]
    constructor <;> norm_num
  norm_num [hf]

/-- Witness for C1 at the `founders` persona and a concrete in-range draw. -/
theorem simulate_performance_data_bounds_witness :
    0 ≤ (PerformanceAnalyzer.simulatePersona "founders"
        PerformanceAnalyzer.sampleDraw).clicked ∧
    (PerformanceAnalyzer.simulatePersona "founders"
        PerformanceAnalyzer.sampleDraw).clicked ≤
      (PerformanceAnalyzer.simulatePersona "founders"
        PerformanceAnalyzer.sampleDraw).opened ∧
    (PerformanceAnalyzer.simulatePersona "founders"
        PerformanceAnalyzer.sampleDraw).opened ≤ 95 / 100 := by
  have h := simulate_performance_data_bounds "campaign_w" ["founders"]
      PerformanceAnalyzer.sampleDraws (fun _ => sampleDraw_in_range)
      ("founders", PerformanceAnalyzer.simulatePersona "founders"
        PerformanceAnalyzer.sampleDraw)
      (by simp [PerformanceAnalyzer.simulate_performance_data,
        PerformanceAnalyzer.sampleDraws])
  exact h.2.2.1

/-- The improvements artifact never shares a path with the content artifact:
the directories differ at character 5 (`generated_content` vs `analytics`). -/
theorem improvementsPath_ne_contentPath (cid st cid' : List Char) :
    Config.improvementsPath cid ≠ Config.contentPath st cid' := by
  intro h
  have ha : (Config.improvementsPath cid).get? 5 = some 'a' := rfl
  rw [h, show (Config.contentPath st cid').get? 5 = some 'g' from rfl] at ha
  exact absurd ha (by decide)

/-- Nor with the campaign log (directory differs at character 5). -/
theorem improvementsPath_ne_campaignLogPath (cid cid' : List Char) :
    Config.improvementsPath cid ≠ Config.campaignLogPath cid' := by
  intro h
  have ha : (Config.improvementsPath cid).get? 5 = some 'a' := rfl
  rw [h, show (Config.campaignLogPath cid').get? 5 = some 'c' from rfl] at ha
  exact absurd ha (by decide)

/-- Nor with the performance artifact of the same campaign (same directory,
different file suffix). -/
theorem improvementsPath_ne_performancePath (cid : List Char) :
    Config.improvementsPath cid ≠ Config.performancePath cid := by
  intro h
  unfold Config.improvementsPath Config.performancePath at h
  have h1 := List.append_cancel_left h
  injection h1 with _ h2
  have h3 := List.append_cancel_left h2
  exact absurd h3 (by decide)

/-- Nor with the summary artifact of the same campaign. -/
theorem improvementsPath_ne_summaryPath (cid : List Char) :
    Config.improvementsPath cid ≠ Config.summaryPath cid := by
  intro h
  unfold Config.improvementsPath Config.summaryPath at h
  have h1 := List.append_cancel_left h
  injection h1 with _ h2
  have h3 := List.append_cancel_left h2
  exact absurd h3 (by decide)

/-- C7 counterexample: in a run without variations the content artifact still
carries a `variations` entry — an empty-list placeholder — so the claim that
the persisted content artifact contains no variations entry fails. -/
theorem content_artifact_has_variations_placeholder :
    PyJson.lookupKey
        ((MainPipeline.run_pipeline_writes Char.isAlphanum false
            MainPipeline.sampleOutputs).headD ([], PyJson.Json.null)).2
        ("variations".data) =
      some (PyJson.Json.arr []) := rfl

/-- C7 amended: when variations are not requested the improvements artifact is
indeed never written (its path appears among the run's writes exactly when
`generate_variations` is set), but the content artifact always contains a
`variations` key, holding the generated list when requested and the empty list
placeholder otherwise. -/
theorem run_pipeline_writes_amended (isalnum : Char → Bool)
    (generate_variations : Bool) (so : MainPipeline.StageOutputs) :
    PyJson.lookupKey
        ((MainPipeline.run_pipeline_writes isalnum generate_variations so).headD
          ([], PyJson.Json.null)).2 ("variations".data) =
      some (.arr (if generate_variations then so.variationsGen else [])) ∧
    (Config.improvementsPath so.campaign_id ∈
        (MainPipeline.run_pipeline_writes isalnum generate_variations so).map
          Prod.fst ↔
      generate_variations = true) := by
  constructor
  · cases generate_variations <;> rfl
  · cases generate_variations with
    | true => simp [MainPipeline.run_pipeline_writes]
    | false =>
        simp only [MainPipeline.run_pipeline_writes, Bool.false_eq_true, if_false,
          List.map_cons, List.map_nil, List.mem_cons, List.not_mem_nil, or_false,
          iff_false, not_or]
        exact ⟨improvementsPath_ne_contentPath _ _ _,
          improvementsPath_ne_campaignLogPath _ _,
          improvementsPath_ne_performancePath _,
          improvementsPath_ne_summaryPath _⟩

/-- The decimal digit characters carry their values and pass the digit test. -/
theorem digit_ofNat_spec : ∀ m < 10,
    PyJson.isDigitChar (Char.ofNat (48 + m)) = true ∧
    PyJson.digitVal (Char.ofNat (48 + m)) = m := by
  intro m hm
  interval_cases m <;> exact ⟨rfl, rfl⟩

/-- Specification of `digitChar`. -/
theorem digitChar_spec (d : ℕ) :
    PyJson.isDigitChar (PyJson.digitChar d) = true ∧
    PyJson.digitVal (PyJson.digitChar d) = d % 10 :=
  digit_ofNat_spec (d % 10) (Nat.mod_lt _ (by omega))

/-- Every character `natDigits` produces is a digit. -/
theorem natDigits_all_digits (n : ℕ) :
    ∀ c ∈ PyJson.natDigits n, PyJson.isDigitChar c = true := by
  induction n using Nat.strong_induction_on with
  | _ n ih =>
    rw [PyJson.natDigits]
    split
    · intro c hc
      rw [List.mem_singleton] at hc
      subst hc
      exact (digitChar_spec n).1
    · rename_i h
      intro c hc
      rw [List.mem_append] at hc
      rcases hc with hc | hc
      · exact ih (n / 10) (Nat.div_lt_self (by omega) (by omega)) c hc
      · rw [List.mem_singleton] at hc
        subst hc
        exact (digitChar_spec (n % 10)).1

/-- The digit run is never empty. -/
theorem natDigits_ne_nil (n : ℕ) : PyJson.natDigits n ≠ [] := by
  rw [PyJson.natDigits]
  split <;> simp

/-- The digit run starts with a digit character. -/
theorem natDigits_head_digit (n : ℕ) :
    ∃ c t, PyJson.natDigits n = c :: t ∧ PyJson.isDigitChar c = true := by
  match h : PyJson.natDigits n with
  | [] => exact absurd h (natDigits_ne_nil n)
  | c :: t =>
      exact ⟨c, t, rfl, natDigits_all_digits n c (h ▸ List.mem_cons_self c t)⟩

/-- Reading the digit run back gives the number. -/
theorem digitsToNat_natDigits (n : ℕ) :
    PyJson.digitsToNat (PyJson.natDigits n) = n := by
  induction n using Nat.strong_induction_on with
  | _ n ih =>
    rw [PyJson.natDigits]
    split
    · rename_i h
      simp [PyJson.digitsToNat, (digitChar_spec n).2, Nat.mod_eq_of_lt h]
    · rename_i h
      unfold PyJson.digitsToNat
      rw [List.foldl_append]
      have hfront : (PyJson.natDigits (n / 10)).foldl
          (fun a c => a * 10 + PyJson.digitVal c) 0 = n / 10 :=
        ih (n / 10) (Nat.div_lt_self (by omega) (by omega))
      rw [hfront]
      simp only [List.foldl_cons, List.foldl_nil, (digitChar_spec (n % 10)).2,
        Nat.mod_mod_of_dvd]
      omega

/-- A digit run followed by a non-digit splits exactly at the run's end under
`takeWhile`/`dropWhile`. -/
theorem takeWhile_digit_run (ds rest : List Char)
    (hds : ∀ c ∈ ds, PyJson.isDigitChar c = true)
    (hrest : PyJson.noDigitHead rest = true) :
    (ds ++ rest).takeWhile PyJson.isDigitChar = ds ∧
    (ds ++ rest).dropWhile PyJson.isDigitChar = rest := by
  induction ds with
  | nil =>
      cases rest with
      | nil => exact ⟨rfl, rfl⟩
      | cons r rs =>
          simp only [PyJson.noDigitHead, Bool.not_eq_true'] at hrest
          simp [List.takeWhile_cons, List.dropWhile_cons, hrest]
  | cons c cs ih =>
      have hc := hds c (List.mem_cons_self c cs)
      have iht := ih fun x hx => hds x (List.mem_cons_of_mem c hx)
      simp [List.takeWhile_cons, List.dropWhile_cons, hc, iht.1, iht.2]

/-- A number break in particular has no digit head. -/
theorem numBreak_noDigitHead {rest : List Char}
    (h : PyJson.numBreak rest = true) : PyJson.noDigitHead rest = true := by
  cases rest with
  | nil => rfl
  | cons c t =>
      simp only [PyJson.numBreak, Bool.not_eq_true', Bool.or_eq_false_iff] at h
      simp [PyJson.noDigitHead, h.1]

/-- Reading a rendered digit back gives the digit. -/
theorem finOfDigit_digitChar (d : Fin 10) :
    PyJson.finOfDigit (PyJson.digitChar d.val) = d := by
  apply Fin.ext
  show PyJson.digitVal (PyJson.digitChar d.val) % 10 = d.val
  rw [(digitChar_spec d.val).2]
  have := d.isLt
  omega

/-- The number lexer on a leading minus sign. -/
theorem parseNumTok_minus (x : List Char) :
    PyJson.parseNumTok ('-' :: x) = PyJson.parseNumBody true x := rfl

/-- The number lexer on any other head. -/
theorem parseNumTok_not_minus {c : Char} (hc : c ≠ '-') (x : List Char) :
    PyJson.parseNumTok (c :: x) = PyJson.parseNumBody false (c :: x) := by
  unfold PyJson.parseNumTok
  split
  · rename_i heq
    injection heq with h1 _
    exact absurd h1 hc
  · rfl

/-- The unsigned number body on a digit run followed by a number break reads
an integer. -/
theorem parseNumBody_natDigits (b : Bool) (n : ℕ) (rest : List Char)
    (hrest : PyJson.numBreak rest = true) :
    PyJson.parseNumBody b (PyJson.natDigits n ++ rest) =
      some (.int (if b then -(n : ℤ) else (n : ℤ)), rest) := by
  have htd := takeWhile_digit_run (PyJson.natDigits n) rest
    (natDigits_all_digits _) (numBreak_noDigitHead hrest)
  have hne : (PyJson.natDigits n).isEmpty = false :=
    List.isEmpty_eq_false.mpr (natDigits_ne_nil _)
  unfold PyJson.parseNumBody
  rw [htd.1, htd.2]
  simp only [hne, Bool.false_eq_true, if_false]
  split
  · simp [PyJson.numBreak] at hrest
  · rw [digitsToNat_natDigits]

/-- The unsigned number body inverts the unsigned float numeral, provided the
rest of the input cannot extend the number token. -/
theorem parseNumBody_realBody (b : Bool) (ip : ℕ) (f0 : Fin 10)
    (fr : List (Fin 10)) (rest : List Char)
    (hrest : PyJson.numBreak rest = true) :
    PyJson.parseNumBody b (PyJson.realBody ip f0 fr ++ rest) =
      some (.real b ip f0 fr, rest) := by
  have hshape : PyJson.realBody ip f0 fr ++ rest =
      PyJson.natDigits ip ++ ('.' :: PyJson.digitChar f0.val ::
        (fr.map (fun d => PyJson.digitChar d.val) ++ rest)) := by
    unfold PyJson.realBody
    rw [List.append_assoc]
    rfl
  have htd := takeWhile_digit_run (PyJson.natDigits ip)
    ('.' :: PyJson.digitChar f0.val ::
      (fr.map (fun d => PyJson.digitChar d.val) ++ rest))
    (natDigits_all_digits _) rfl
  have hfd : ∀ c ∈ fr.map (fun d => PyJson.digitChar d.val),
      PyJson.isDigitChar c = true := by
    intro c hcmem
    obtain ⟨d, _, hdc⟩ := List.mem_map.mp hcmem
    rw [← hdc]
    exact (digitChar_spec d.val).1
  have htf := takeWhile_digit_run (fr.map (fun d => PyJson.digitChar d.val)) rest
    hfd (numBreak_noDigitHead hrest)
  have hne : (PyJson.natDigits ip).isEmpty = false :=
    List.isEmpty_eq_false.mpr (natDigits_ne_nil _)
  have hmap : (fr.map (fun d => PyJson.digitChar d.val)).map PyJson.finOfDigit
      = fr := by
    rw [List.map_map]
    have hcongr : ∀ d ∈ fr,
        (PyJson.finOfDigit ∘ fun d => PyJson.digitChar d.val) d = id d :=
      fun d _ => finOfDigit_digitChar d
    rw [List.map_congr_left hcongr, List.map_id]
  rw [hshape]
  unfold PyJson.parseNumBody
  rw [htd.1, htd.2]
  simp only [hne, Bool.false_eq_true, if_false]
  split
  · rw [digitsToNat_natDigits, htf.1, htf.2, finOfDigit_digitChar, hmap]
  · rename_i hneq
    exact absurd (digitChar_spec f0.val).1 hneq

/-- The number lexer inverts the integer serialiser, provided the rest of the
input cannot extend the number token. -/
theorem parseNumTok_intChars (i : ℤ) (rest : List Char)
    (hrest : PyJson.numBreak rest = true) :
    PyJson.parseNumTok (PyJson.intChars i ++ rest) = some (.int i, rest) := by
  by_cases hi : i < 0
  · have hic : PyJson.intChars i = '-' :: PyJson.natDigits i.natAbs := by
      unfold PyJson.intChars
      rw [if_pos hi]
    rw [hic, List.cons_append, parseNumTok_minus,
      parseNumBody_natDigits true i.natAbs rest hrest, if_pos rfl]
    have hval : -((i.natAbs : ℕ) : ℤ) = i := by omega
    rw [hval]
  · have hic : PyJson.intChars i = PyJson.natDigits i.natAbs := by
      unfold PyJson.intChars
      rw [if_neg hi]
    obtain ⟨c, t, hct, hc⟩ := natDigits_head_digit i.natAbs
    have hcm : c ≠ '-' := by
      intro h
      subst h
      exact absurd hc (by decide)
    rw [hic, hct, List.cons_append, parseNumTok_not_minus hcm,
      ← List.cons_append, ← hct,
      parseNumBody_natDigits false i.natAbs rest hrest,
      if_neg Bool.false_ne_true]
    have hval : ((i.natAbs : ℕ) : ℤ) = i := by omega
    rw [hval]

/-- The hex digit characters carry their values. -/
theorem hexVal_hexDigitChar (n : ℕ) :
    PyJson.hexVal (PyJson.hexDigitChar n) = some (n % 16) := by
  have h : n % 16 < 16 := Nat.mod_lt _ (by omega)
  have h2 : ∀ m < 16,
      PyJson.hexVal (if m < 10 then Char.ofNat (48 + m) else Char.ofNat (87 + m)) =
        some m := by
    intro m hm
    interval_cases m <;> decide
  have := h2 (n % 16) h
  simpa [PyJson.hexDigitChar] using this

/-- One parser step over a `\\uXXXX` escape. -/
theorem parseStrBody_u_step (a b d e : Char) (r : List Char) :
    PyJson.parseStrBody ('\\' :: 'u' :: a :: b :: d :: e :: r) =
      (match PyJson.hexVal a, PyJson.hexVal b, PyJson.hexVal d, PyJson.hexVal e with
       | some va, some vb, some vc, some vd =>
           match PyJson.parseStrBody r with
           | some (cs, r'') =>
               some (Char.ofNat (((va * 16 + vb) * 16 + vc) * 16 + vd) :: cs, r'')
           | none => none
       | _, _, _, _ => none) := rfl

/-- One parser step over an unescaped character. -/
theorem parseStrBody_plain_step (ch : Char) (h1 : (ch == '"') = false)
    (h2 : (ch == '\\') = false) (r : List Char) :
    PyJson.parseStrBody (ch :: r) =
      match PyJson.parseStrBody r with
      | some (cs, r') => some (ch :: cs, r')
      | none => none := by
  rw [PyJson.parseStrBody.eq_def]
  simp only [h1, h2, Bool.false_eq_true, if_false]

/-- Parsing one escaped character undoes the escape, whatever follows. -/
theorem parseStrBody_escapeChar (c : Char) (rest : List Char) :
    PyJson.parseStrBody (PyJson.escapeChar c ++ rest) =
      match PyJson.parseStrBody rest with
      | some (cs, r') => some (c :: cs, r')
      | none => none := by
  unfold PyJson.escapeChar
  split_ifs with h1 h2 h3 h4 h5 h6 h7 h8
  · rw [eq_of_beq h1]
    rfl
  · rw [eq_of_beq h2]
    rfl
  · rw [eq_of_beq h3]
    rfl
  · rw [eq_of_beq h4]
    rfl
  · rw [eq_of_beq h5]
    rfl
  · rw [eq_of_beq h6]
    rfl
  · rw [eq_of_beq h7]
    rfl
  · show PyJson.parseStrBody ('\\' :: 'u' :: '0' :: '0' ::
        PyJson.hexDigitChar (c.toNat / 16) :: PyJson.hexDigitChar c.toNat :: rest) = _
    rw [parseStrBody_u_step]
    have hv0 : PyJson.hexVal '0' = some 0 := rfl
    simp only [hv0, hexVal_hexDigitChar]
    have hval : ((0 * 16 + 0) * 16 + c.toNat / 16 % 16) * 16 + c.toNat % 16 =
        c.toNat := by
      omega
    rw [hval, Char.ofNat_toNat]
  · have h1' : (c == '"') = false := by
      simpa using h1
    have h2' : (c == '\\') = false := by
      simpa using h2
    show PyJson.parseStrBody (c :: rest) = _
    rw [parseStrBody_plain_step c h1' h2']

/-- Parsing an escaped body stops exactly at the closing quote, recovering the
original characters. -/
theorem parseStrBody_escapeBody (s rest : List Char) :
    PyJson.parseStrBody (PyJson.escapeBody s ++ ('"' :: rest)) = some (s, rest) := by
  induction s with
  | nil =>
      show PyJson.parseStrBody ('"' :: rest) = some ([], rest)
      rw [PyJson.parseStrBody.eq_def]
      rfl
  | cons c cs ih =>
      show PyJson.parseStrBody ((PyJson.escapeChar c ++ PyJson.escapeBody cs) ++
        ('"' :: rest)) = _
      rw [List.append_assoc, parseStrBody_escapeChar, ih]

/-- A digit character is none of the parser's structural head characters. -/
theorem digit_head_facts (c : Char) (h : PyJson.isDigitChar c = true) :
    PyJson.isJsonWs c = false ∧ (c == ']') = false ∧ (c == '}') = false ∧
    (c == 'n') = false ∧ (c == 't') = false ∧ (c == 'f') = false ∧
    (c == '"') = false ∧ (c == '[') = false ∧ (c == '{') = false ∧
    (c == '-') = false := by
  refine ⟨?_, ?_, ?_, ?_, ?_, ?_, ?_, ?_, ?_, ?_⟩
  · simp only [PyJson.isJsonWs, Bool.or_eq_false_iff, beq_eq_false_iff_ne]
    refine ⟨⟨⟨?_, ?_⟩, ?_⟩, ?_⟩ <;> (intro hx; subst hx; exact absurd h (by decide))
  all_goals (rw [beq_eq_false_iff_ne]; intro hx; subst hx; exact absurd h (by decide))

/-- Every serialised value starts with a character that is neither whitespace
nor a closing bracket or brace. -/
theorem dump_head (v : PyJson.Json) :
    ∃ c t, PyJson.dump v = c :: t ∧ PyJson.isJsonWs c = false ∧
      (c == ']') = false ∧ (c == '}') = false := by
  cases v with
  | null => exact ⟨'n', _, by rw [PyJson.dump], rfl, rfl, rfl⟩
  | bool b =>
      cases b with
      | false => exact ⟨'f', _, by rw [PyJson.dump], rfl, rfl, rfl⟩
      | true => exact ⟨'t', _, by rw [PyJson.dump], rfl, rfl, rfl⟩
  | int i =>
      by_cases hi : i < 0
      · refine ⟨'-', PyJson.natDigits i.natAbs, ?_, rfl, rfl, rfl⟩
        rw [PyJson.dump]
        unfold PyJson.intChars
        rw [if_pos hi]
      · obtain ⟨c, t, hct, hc⟩ := natDigits_head_digit i.natAbs
        have hfacts := digit_head_facts c hc
        refine ⟨c, t, ?_, hfacts.1, hfacts.2.1, hfacts.2.2.1⟩
        rw [PyJson.dump]
        unfold PyJson.intChars
        rw [if_neg hi, hct]
  | real neg ip f0 fr =>
      cases neg with
      | true =>
          refine ⟨'-', PyJson.realBody ip f0 fr, ?_, rfl, rfl, rfl⟩
          rw [PyJson.dump]
          rfl
      | false =>
          obtain ⟨c, t, hct, hc⟩ := natDigits_head_digit ip
          have hfacts := digit_head_facts c hc
          refine ⟨c, t ++ ('.' :: PyJson.digitChar f0.val ::
            fr.map (fun d => PyJson.digitChar d.val)), ?_, hfacts.1,
            hfacts.2.1, hfacts.2.2.1⟩
          rw [PyJson.dump]
          show PyJson.natDigits ip ++ ('.' :: PyJson.digitChar f0.val ::
            fr.map (fun d => PyJson.digitChar d.val)) = _
          rw [hct, List.cons_append]
  | str s =>
      refine ⟨'"', PyJson.escapeBody s ++ ['"'], ?_, rfl, rfl, rfl⟩
      rw [PyJson.dump]
      rfl
  | arr items =>
      cases items with
      | nil => exact ⟨'[', [']'], by rw [PyJson.dump], rfl, rfl, rfl⟩
      | cons x xs =>
          exact ⟨'[', PyJson.dumpItems x xs, by rw [PyJson.dump], rfl, rfl, rfl⟩
  | obj members =>
      cases members with
      | nil => exact ⟨'{', ['}'], by rw [PyJson.dump], rfl, rfl, rfl⟩
      | cons m ms =>
          exact ⟨'{', PyJson.dumpMembers m ms, by rw [PyJson.dump], rfl, rfl, rfl⟩

/-- Skipping whitespace does nothing before a non-whitespace head. -/
theorem skipWs_cons_not {c : Char} (h : PyJson.isJsonWs c = false) (l : List Char) :
    PyJson.skipWs (c :: l) = c :: l := by
  simp [PyJson.skipWs, List.dropWhile_cons, h]

/-- Skipping whitespace does nothing on serialised output. -/
theorem skipWs_dump (v : PyJson.Json) (x : List Char) :
    PyJson.skipWs (PyJson.dump v ++ x) = PyJson.dump v ++ x := by
  obtain ⟨c, t, hct, hws, _, _⟩ := dump_head v
  rw [hct, List.cons_append, skipWs_cons_not hws]

/-- Every value has positive fuel cost. -/
theorem jsize_pos (v : PyJson.Json) : 1 ≤ PyJson.jsize v := by
  cases v <;> simp [PyJson.jsize]

/-- Whitespace skipping is inert before each delimiter the serialiser emits. -/
theorem skipWs_comma (l : List Char) : PyJson.skipWs (',' :: l) = ',' :: l := rfl

/-- Same for a colon. -/
theorem skipWs_colon (l : List Char) : PyJson.skipWs (':' :: l) = ':' :: l := rfl

/-- Same for a closing bracket. -/
theorem skipWs_rbracket (l : List Char) : PyJson.skipWs (']' :: l) = ']' :: l := rfl

/-- Same for a closing brace. -/
theorem skipWs_rbrace (l : List Char) : PyJson.skipWs ('}' :: l) = '}' :: l := rfl

/-- Same for a quote. -/
theorem skipWs_quote (l : List Char) : PyJson.skipWs ('"' :: l) = '"' :: l := rfl

/-- An item list closes after its final value's `]`. -/
theorem parseItems_last_step (fuel : ℕ) (s r : List Char) (v : PyJson.Json)
    (hv : PyJson.parseVal fuel s = some (v, ']' :: r)) :
    PyJson.parseItems (fuel + 1) s = some ([v], r) := by
  rw [PyJson.parseItems, hv]
  simp [skipWs_rbracket]

/-- An item list continues over a comma. -/
theorem parseItems_cons_step (fuel : ℕ) (s r rest : List Char) (v : PyJson.Json)
    (xs : List PyJson.Json)
    (hv : PyJson.parseVal fuel s = some (v, ',' :: r))
    (hxs : PyJson.parseItems fuel r = some (xs, rest)) :
    PyJson.parseItems (fuel + 1) s = some (v :: xs, rest) := by
  rw [PyJson.parseItems, hv]
  simp [skipWs_comma, hxs]

/-- A member list closes after a final `key : value }`. -/
theorem parseMembers_last_step (fuel : ℕ) (k : List Char) (v : PyJson.Json)
    (X r : List Char) (hv : PyJson.parseVal fuel X = some (v, '}' :: r)) :
    PyJson.parseMembers (fuel + 1)
        ('"' :: (PyJson.escapeBody k ++ ('"' :: (':' :: X)))) =
      some ([(k, v)], r) := by
  rw [PyJson.parseMembers]
  simp [skipWs_quote, parseStrBody_escapeBody, skipWs_colon, hv, skipWs_rbrace]

/-- A member list continues over a `key : value ,`. -/
theorem parseMembers_cons_step (fuel : ℕ) (k : List Char) (v : PyJson.Json)
    (X r rest : List Char) (ms : List (List Char × PyJson.Json))
    (hv : PyJson.parseVal fuel X = some (v, ',' :: r))
    (hms : PyJson.parseMembers fuel r = some (ms, rest)) :
    PyJson.parseMembers (fuel + 1)
        ('"' :: (PyJson.escapeBody k ++ ('"' :: (':' :: X)))) =
      some ((k, v) :: ms, rest) := by
  rw [PyJson.parseMembers]
  simp [skipWs_quote, parseStrBody_escapeBody, skipWs_colon, hv, skipWs_comma, hms]

/-- The parser on a quoted head reads a string value. -/
theorem parseVal_quote_step (fuel : ℕ) (x : List Char) :
    PyJson.parseVal (fuel + 1) ('"' :: x) =
      match PyJson.parseStrBody x with
      | some (cs, r') => some (.str cs, r')
      | none => none := rfl

/-- The parser on a minus head reads a number. -/
theorem parseVal_minus_step (fuel : ℕ) (x : List Char) :
    PyJson.parseVal (fuel + 1) ('-' :: x) = PyJson.parseNumTok ('-' :: x) := rfl

/-- The parser on a digit head reads a number. -/
theorem parseVal_digit_step (fuel : ℕ) (c : Char) (x : List Char)
    (hc : PyJson.isDigitChar c = true) :
    PyJson.parseVal (fuel + 1) (c :: x) = PyJson.parseNumTok (c :: x) := by
  obtain ⟨hws, _, _, hn, ht, hf, hq, hlb, hlbr, hm⟩ := digit_head_facts c hc
  rw [PyJson.parseVal, skipWs_cons_not hws]
  simp [hn, ht, hf, hq, hlb, hlbr, hm, hc]

/-- The parser's step on an opening bracket. -/
theorem parseVal_lbracket_step (fuel : ℕ) (x : List Char) :
    PyJson.parseVal (fuel + 1) ('[' :: x) =
      (match PyJson.skipWs x with
       | [] => none
       | c2 :: r2 =>
           if c2 == ']' then some (.arr [], r2)
           else
             match PyJson.parseItems fuel (c2 :: r2) with
             | some (xs, r') => some (.arr xs, r')
             | none => none) := rfl

/-- The parser's step on an opening brace. -/
theorem parseVal_lbrace_step (fuel : ℕ) (x : List Char) :
    PyJson.parseVal (fuel + 1) ('{' :: x) =
      (match PyJson.skipWs x with
       | [] => none
       | c2 :: r2 =>
           if c2 == '}' then some (.obj [], r2)
           else
             match PyJson.parseMembers fuel (c2 :: r2) with
             | some (ms, r') => some (.obj ms, r')
             | none => none) := rfl

/-- Reading a serialised non-empty array body through the parser's bracket
branch. -/
theorem parseVal_arr_step (fuel : ℕ) (x : PyJson.Json) (xs : List PyJson.Json)
    (rest : List Char)
    (hitems : PyJson.parseItems fuel (PyJson.dumpItems x xs ++ rest) =
      some (x :: xs, rest)) :
    PyJson.parseVal (fuel + 1) ('[' :: (PyJson.dumpItems x xs ++ rest)) =
      some (.arr (x :: xs), rest) := by
  obtain ⟨X, hX⟩ : ∃ X, PyJson.dumpItems x xs = PyJson.dump x ++ X := by
    cases xs with
    | nil => exact ⟨[']'], by rw [PyJson.dumpItems]⟩
    | cons y ys => exact ⟨',' :: PyJson.dumpItems y ys, by rw [PyJson.dumpItems]⟩
  obtain ⟨c, t, hct, hws, hbk, _⟩ := dump_head x
  have hcons : PyJson.dumpItems x xs ++ rest = c :: (t ++ (X ++ rest)) := by
    rw [hX, hct, List.append_assoc, List.cons_append]
  have hsk : PyJson.skipWs (PyJson.dumpItems x xs ++ rest) =
      c :: (t ++ (X ++ rest)) := by
    rw [hcons, skipWs_cons_not hws]
  have hitems' : PyJson.parseItems fuel (c :: (t ++ (X ++ rest))) =
      some (x :: xs, rest) := by
    rw [← hcons]
    exact hitems
  rw [parseVal_lbracket_step, hsk]
  simp [hbk, hitems']

/-- Reading a serialised non-empty object body through the parser's brace
branch. -/
theorem parseVal_obj_step (fuel : ℕ) (m : List Char × PyJson.Json)
    (ms : List (List Char × PyJson.Json)) (rest : List Char)
    (hmem : PyJson.parseMembers fuel (PyJson.dumpMembers m ms ++ rest) =
      some (m :: ms, rest)) :
    PyJson.parseVal (fuel + 1) ('{' :: (PyJson.dumpMembers m ms ++ rest)) =
      some (.obj (m :: ms), rest) := by
  obtain ⟨Y, hY⟩ : ∃ Y, PyJson.dumpMembers m ms = '"' :: Y := by
    obtain ⟨k, v⟩ := m
    cases ms with
    | nil =>
        refine ⟨(PyJson.escapeBody k ++ ['"']) ++ (':' :: (PyJson.dump v ++ ['}'])), ?_⟩
        rw [PyJson.dumpMembers]
        rfl
    | cons m' ms' =>
        refine ⟨(PyJson.escapeBody k ++ ['"']) ++
          (':' :: (PyJson.dump v ++ ',' :: PyJson.dumpMembers m' ms')), ?_⟩
        rw [PyJson.dumpMembers]
        rfl
  have hcons : PyJson.dumpMembers m ms ++ rest = '"' :: (Y ++ rest) := by
    rw [hY, List.cons_append]
  have hmem' : PyJson.parseMembers fuel ('"' :: (Y ++ rest)) =
      some (m :: ms, rest) := by
    rw [← hcons]
    exact hmem
  rw [parseVal_lbrace_step, hcons, skipWs_quote]
  simp [hmem']

mutual

/-- Parsing a serialised value consumes exactly its characters and recovers
it, whenever the rest of the input cannot extend a number token and the fuel
covers the value's size. -/
theorem rt_val : ∀ (fuel : ℕ) (v : PyJson.Json) (rest : List Char),
    PyJson.jsize v ≤ fuel → PyJson.numBreak rest = true →
    PyJson.parseVal fuel (PyJson.dump v ++ rest) = some (v, rest)
  | 0, v, _, hf, _ => absurd hf (by have := jsize_pos v; omega)
  | fuel + 1, .null, rest, _, _ => by
      rw [show PyJson.dump .null = 'n' :: 'u' :: 'l' :: 'l' :: [] from by
        rw [PyJson.dump]]
      rfl
  | fuel + 1, .bool true, rest, _, _ => by
      rw [show PyJson.dump (.bool true) = 't' :: 'r' :: 'u' :: 'e' :: [] from by
        rw [PyJson.dump]]
      rfl
  | fuel + 1, .bool false, rest, _, _ => by
      rw [show PyJson.dump (.bool false) = 'f' :: 'a' :: 'l' :: 's' :: 'e' :: [] from by
        rw [PyJson.dump]]
      rfl
  | fuel + 1, .int i, rest, _, hr => by
      rw [show PyJson.dump (.int i) = PyJson.intChars i from by rw [PyJson.dump]]
      by_cases hi : i < 0
      · have hic : PyJson.intChars i = '-' :: PyJson.natDigits i.natAbs := by
          unfold PyJson.intChars
          rw [if_pos hi]
        rw [hic, List.cons_append, parseVal_minus_step, ← List.cons_append, ← hic,
          parseNumTok_intChars i rest hr]
      · obtain ⟨c, t, hct, hc⟩ := natDigits_head_digit i.natAbs
        have hic : PyJson.intChars i = PyJson.natDigits i.natAbs := by
          unfold PyJson.intChars
          rw [if_neg hi]
        rw [hic, hct, List.cons_append, parseVal_digit_step fuel c _ hc,
          ← List.cons_append, ← hct, ← hic, parseNumTok_intChars i rest hr]
  | fuel + 1, .real neg ip f0 fr, rest, _, hr => by
      rw [show PyJson.dump (.real neg ip f0 fr) = PyJson.dumpReal neg ip f0 fr
        from by rw [PyJson.dump]]
      cases neg with
      | true =>
          have hd : PyJson.dumpReal true ip f0 fr =
              '-' :: PyJson.realBody ip f0 fr := rfl
          rw [hd, List.cons_append, parseVal_minus_step, parseNumTok_minus,
            parseNumBody_realBody true ip f0 fr rest hr]
      | false =>
          have hd : PyJson.dumpReal false ip f0 fr = PyJson.realBody ip f0 fr := rfl
          obtain ⟨c, t, hct, hc⟩ := natDigits_head_digit ip
          have hcm : c ≠ '-' := by
            intro h
            subst h
            exact absurd hc (by decide)
          have hsplit : PyJson.realBody ip f0 fr =
              c :: (t ++ ('.' :: PyJson.digitChar f0.val ::
                fr.map (fun d => PyJson.digitChar d.val))) := by
            unfold PyJson.realBody
            rw [hct, List.cons_append]
          rw [hd, hsplit, List.cons_append, parseVal_digit_step fuel c _ hc,
            parseNumTok_not_minus hcm, ← List.cons_append, ← hsplit,
            parseNumBody_realBody false ip f0 fr rest hr]
  | fuel + 1, .str s, rest, _, _ => by
      rw [show PyJson.dump (.str s) = '"' :: (PyJson.escapeBody s ++ ['"']) from by
        rw [PyJson.dump]
        rfl]
      rw [List.cons_append, parseVal_quote_step]
      have harr : (PyJson.escapeBody s ++ ['"']) ++ rest =
          PyJson.escapeBody s ++ ('"' :: rest) := by
        rw [List.append_assoc]
        rfl
      rw [harr, parseStrBody_escapeBody]
  | fuel + 1, .arr [], rest, _, _ => by
      rw [show PyJson.dump (.arr []) = '[' :: ']' :: [] from by rw [PyJson.dump]]
      rfl
  | fuel + 1, .arr (x :: xs), rest, hf, hr => by
      have h1 : PyJson.jsize (.arr (x :: xs)) = 1 + PyJson.jsizeItems (x :: xs) := by
        rw [PyJson.jsize]
      rw [h1] at hf
      rw [show PyJson.dump (.arr (x :: xs)) = '[' :: PyJson.dumpItems x xs from by
        rw [PyJson.dump]]
      rw [List.cons_append]
      exact parseVal_arr_step fuel x xs rest
        (rt_items fuel x xs rest (by omega) hr)
  | fuel + 1, .obj [], rest, _, _ => by
      rw [show PyJson.dump (.obj []) = '{' :: '}' :: [] from by rw [PyJson.dump]]
      rfl
  | fuel + 1, .obj (m :: ms), rest, hf, hr => by
      have h1 : PyJson.jsize (.obj (m :: ms)) = 1 + PyJson.jsizeMembers (m :: ms) := by
        rw [PyJson.jsize]
      rw [h1] at hf
      rw [show PyJson.dump (.obj (m :: ms)) = '{' :: PyJson.dumpMembers m ms from by
        rw [PyJson.dump]]
      rw [List.cons_append]
      exact parseVal_obj_step fuel m ms rest
        (rt_members fuel m ms rest (by omega) hr)
termination_by fuel _ _ _ _ => fuel

/-- Parsing a serialised non-empty item list (with its closing bracket)
recovers the items. -/
theorem rt_items : ∀ (fuel : ℕ) (x : PyJson.Json) (xs : List PyJson.Json)
    (rest : List Char),
    PyJson.jsizeItems (x :: xs) ≤ fuel → PyJson.numBreak rest = true →
    PyJson.parseItems fuel (PyJson.dumpItems x xs ++ rest) = some (x :: xs, rest)
  | 0, x, xs, _, hf, _ => by
      exfalso
      have h1 : PyJson.jsizeItems (x :: xs) =
          PyJson.jsize x + PyJson.jsizeItems xs + 1 := by
        rw [PyJson.jsizeItems]
      omega
  | fuel + 1, x, [], rest, hf, hr => by
      have h1 : PyJson.jsizeItems [x] = PyJson.jsize x + 1 := by
        simp [PyJson.jsizeItems]
      rw [h1] at hf
      rw [show PyJson.dumpItems x [] = PyJson.dump x ++ [']'] from by
        rw [PyJson.dumpItems]]
      have harr : (PyJson.dump x ++ [']']) ++ rest = PyJson.dump x ++ (']' :: rest) := by
        rw [List.append_assoc]
        rfl
      rw [harr]
      exact parseItems_last_step fuel _ rest x
        (rt_val fuel x (']' :: rest) (by omega) rfl)
  | fuel + 1, x, y :: ys, rest, hf, hr => by
      have h1 : PyJson.jsizeItems (x :: y :: ys) =
          PyJson.jsize x + PyJson.jsizeItems (y :: ys) + 1 := by
        rw [PyJson.jsizeItems]
      have h2 : PyJson.jsizeItems (y :: ys) =
          PyJson.jsize y + PyJson.jsizeItems ys + 1 := by
        rw [PyJson.jsizeItems]
      have h3 := jsize_pos x
      have h4 := jsize_pos y
      rw [h1] at hf
      rw [show PyJson.dumpItems x (y :: ys) =
          PyJson.dump x ++ ',' :: PyJson.dumpItems y ys from by rw [PyJson.dumpItems]]
      have harr : (PyJson.dump x ++ ',' :: PyJson.dumpItems y ys) ++ rest =
          PyJson.dump x ++ (',' :: (PyJson.dumpItems y ys ++ rest)) := by
        rw [List.append_assoc]
        rfl
      rw [harr]
      exact parseItems_cons_step fuel _ _ rest x (y :: ys)
        (rt_val fuel x (',' :: (PyJson.dumpItems y ys ++ rest)) (by omega) rfl)
        (rt_items fuel y ys rest (by omega) hr)
termination_by fuel _ _ _ _ _ => fuel

/-- Parsing a serialised non-empty member list (with its closing brace)
recovers the members. -/
theorem rt_members : ∀ (fuel : ℕ) (m : List Char × PyJson.Json)
    (ms : List (List Char × PyJson.Json)) (rest : List Char),
    PyJson.jsizeMembers (m :: ms) ≤ fuel → PyJson.numBreak rest = true →
    PyJson.parseMembers fuel (PyJson.dumpMembers m ms ++ rest) = some (m :: ms, rest)
  | 0, (k, v), ms, _, hf, _ => by
      exfalso
      have h1 : PyJson.jsizeMembers ((k, v) :: ms) =
          PyJson.jsize v + PyJson.jsizeMembers ms + 1 := by
        rw [PyJson.jsizeMembers]
      omega
  | fuel + 1, (k, v), [], rest, hf, hr => by
      have h1 : PyJson.jsizeMembers [(k, v)] = PyJson.jsize v + 1 := by
        simp [PyJson.jsizeMembers]
      rw [h1] at hf
      have hshape : PyJson.dumpMembers (k, v) [] ++ rest =
          '"' :: (PyJson.escapeBody k ++
            ('"' :: (':' :: (PyJson.dump v ++ ('}' :: rest))))) := by
        rw [PyJson.dumpMembers]
        simp [PyJson.dumpStr, List.append_assoc]
      rw [hshape]
      exact parseMembers_last_step fuel k v _ rest
        (rt_val fuel v ('}' :: rest) (by omega) rfl)
  | fuel + 1, (k, v), m' :: ms', rest, hf, hr => by
      have h1 : PyJson.jsizeMembers ((k, v) :: m' :: ms') =
          PyJson.jsize v + PyJson.jsizeMembers (m' :: ms') + 1 := by
        rw [PyJson.jsizeMembers]
      have h2 : PyJson.jsizeMembers (m' :: ms') =
          PyJson.jsize m'.2 + PyJson.jsizeMembers ms' + 1 := by
        obtain ⟨k', v'⟩ := m'
        rw [PyJson.jsizeMembers]
      have h3 := jsize_pos v
      have h4 := jsize_pos m'.2
      rw [h1] at hf
      have hshape : PyJson.dumpMembers (k, v) (m' :: ms') ++ rest =
          '"' :: (PyJson.escapeBody k ++
            ('"' :: (':' :: (PyJson.dump v ++
              (',' :: (PyJson.dumpMembers m' ms' ++ rest)))))) := by
        rw [PyJson.dumpMembers]
        simp [PyJson.dumpStr, List.append_assoc]
      rw [hshape]
      exact parseMembers_cons_step fuel k v _ _ rest (m' :: ms')
        (rt_val fuel v (',' :: (PyJson.dumpMembers m' ms' ++ rest)) (by omega) rfl)
        (rt_members fuel m' ms' rest (by omega) hr)
termination_by fuel _ _ _ _ _ => fuel

end

mutual

/-- A value's fuel cost is covered by its serialised length. -/
theorem jsize_le_dump_len : ∀ v : PyJson.Json,
    PyJson.jsize v ≤ (PyJson.dump v).length
  | .null => by
      have h : (PyJson.dump .null).length = 4 := by
        rw [PyJson.dump]
        rfl
      have h2 : PyJson.jsize .null = 1 := by
        rw [PyJson.jsize]
      omega
  | .bool b => by
      have h2 : PyJson.jsize (.bool b) = 1 := by
        rw [PyJson.jsize]
      cases b with
      | true =>
          have h : (PyJson.dump (.bool true)).length = 4 := by
            rw [PyJson.dump]
            rfl
          omega
      | false =>
          have h : (PyJson.dump (.bool false)).length = 5 := by
            rw [PyJson.dump]
            rfl
          omega
  | .int i => by
      have h2 : PyJson.jsize (.int i) = 1 := by
        rw [PyJson.jsize]
      have h : 1 ≤ (PyJson.dump (.int i)).length := by
        rw [show PyJson.dump (.int i) = PyJson.intChars i from by rw [PyJson.dump]]
        unfold PyJson.intChars
        split
        · simp
        · exact List.length_pos.mpr (natDigits_ne_nil _)
      omega
  | .real neg ip f0 fr => by
      have h2 : PyJson.jsize (.real neg ip f0 fr) = 1 := by
        rw [PyJson.jsize]
      have h : 1 ≤ (PyJson.dump (.real neg ip f0 fr)).length := by
        rw [show PyJson.dump (.real neg ip f0 fr) = PyJson.dumpReal neg ip f0 fr
          from by rw [PyJson.dump]]
        unfold PyJson.dumpReal
        cases neg with
        | true => simp
        | false =>
            show 1 ≤ (PyJson.realBody ip f0 fr).length
            unfold PyJson.realBody
            rw [List.length_append]
            simp only [List.length_cons]
            omega
      omega
  | .str s => by
      have h2 : PyJson.jsize (.str s) = 1 := by
        rw [PyJson.jsize]
      have h : 1 ≤ (PyJson.dump (.str s)).length := by
        rw [show PyJson.dump (.str s) = '"' :: (PyJson.escapeBody s ++ ['"']) from by
          rw [PyJson.dump]
          rfl]
        simp
      omega
  | .arr [] => by
      have h : (PyJson.dump (.arr [])).length = 2 := by
        rw [PyJson.dump]
        rfl
      have h2 : PyJson.jsize (.arr []) = 1 := by
        rw [PyJson.jsize]
        rw [PyJson.jsizeItems]
      omega
  | .arr (x :: xs) => by
      have h1 : PyJson.jsize (.arr (x :: xs)) = 1 + PyJson.jsizeItems (x :: xs) := by
        rw [PyJson.jsize]
      have h2 : (PyJson.dump (.arr (x :: xs))).length =
          1 + (PyJson.dumpItems x xs).length := by
        rw [show PyJson.dump (.arr (x :: xs)) = '[' :: PyJson.dumpItems x xs from by
          rw [PyJson.dump]]
        simp
        omega
      have h3 := jsizeItems_le_dumpItems_len x xs
      omega
  | .obj [] => by
      have h : (PyJson.dump (.obj [])).length = 2 := by
        rw [PyJson.dump]
        rfl
      have h2 : PyJson.jsize (.obj []) = 1 := by
        rw [PyJson.jsize]
        rw [PyJson.jsizeMembers]
      omega
  | .obj (m :: ms) => by
      have h1 : PyJson.jsize (.obj (m :: ms)) = 1 + PyJson.jsizeMembers (m :: ms) := by
        rw [PyJson.jsize]
      have h2 : (PyJson.dump (.obj (m :: ms))).length =
          1 + (PyJson.dumpMembers m ms).length := by
        rw [show PyJson.dump (.obj (m :: ms)) = '{' :: PyJson.dumpMembers m ms from by
          rw [PyJson.dump]]
        simp
        omega
      have h3 := jsizeMembers_le_dumpMembers_len m ms
      omega
termination_by v => sizeOf v

/-- Same bound for non-empty item lists. -/
theorem jsizeItems_le_dumpItems_len : ∀ (x : PyJson.Json) (xs : List PyJson.Json),
    PyJson.jsizeItems (x :: xs) ≤ (PyJson.dumpItems x xs).length
  | x, [] => by
      have h1 : PyJson.jsizeItems [x] = PyJson.jsize x + 1 := by
        simp [PyJson.jsizeItems]
      have h2 : (PyJson.dumpItems x []).length = (PyJson.dump x).length + 1 := by
        rw [show PyJson.dumpItems x [] = PyJson.dump x ++ [']'] from by
          rw [PyJson.dumpItems]]
        simp
      have h3 := jsize_le_dump_len x
      omega
  | x, y :: ys => by
      have h1 : PyJson.jsizeItems (x :: y :: ys) =
          PyJson.jsize x + PyJson.jsizeItems (y :: ys) + 1 := by
        rw [PyJson.jsizeItems]
      have h2 : (PyJson.dumpItems x (y :: ys)).length =
          (PyJson.dump x).length + 1 + (PyJson.dumpItems y ys).length := by
        rw [show PyJson.dumpItems x (y :: ys) =
            PyJson.dump x ++ ',' :: PyJson.dumpItems y ys from by
          rw [PyJson.dumpItems]]
        simp
        omega
      have h3 := jsize_le_dump_len x
      have h4 := jsizeItems_le_dumpItems_len y ys
      omega
termination_by x xs => sizeOf x + sizeOf xs

/-- Same bound for non-empty member lists. -/
theorem jsizeMembers_le_dumpMembers_len : ∀ (m : List Char × PyJson.Json)
    (ms : List (List Char × PyJson.Json)),
    PyJson.jsizeMembers (m :: ms) ≤ (PyJson.dumpMembers m ms).length
  | (k, v), [] => by
      have h1 : PyJson.jsizeMembers [(k, v)] = PyJson.jsize v + 1 := by
        simp [PyJson.jsizeMembers]
      have h2 : (PyJson.dumpMembers (k, v) []).length =
          (PyJson.dumpStr k).length + 1 + ((PyJson.dump v).length + 1) := by
        rw [show PyJson.dumpMembers (k, v) [] =
            PyJson.dumpStr k ++ ':' :: (PyJson.dump v ++ ['}']) from by
          rw [PyJson.dumpMembers]]
        simp
        omega
      have h3 := jsize_le_dump_len v
      omega
  | (k, v), m' :: ms' => by
      have h1 : PyJson.jsizeMembers ((k, v) :: m' :: ms') =
          PyJson.jsize v + PyJson.jsizeMembers (m' :: ms') + 1 := by
        rw [PyJson.jsizeMembers]
      have h2 : (PyJson.dumpMembers (k, v) (m' :: ms')).length =
          (PyJson.dumpStr k).length + 1 +
            ((PyJson.dump v).length + 1 + (PyJson.dumpMembers m' ms').length) := by
        rw [show PyJson.dumpMembers (k, v) (m' :: ms') =
            PyJson.dumpStr k ++ ':' :: (PyJson.dump v ++ ',' :: PyJson.dumpMembers m' ms')
            from by rw [PyJson.dumpMembers]]
        simp
        omega
      have h3 := jsize_le_dump_len v
      have h4 := jsizeMembers_le_dumpMembers_len m' ms'
      omega
termination_by m ms => sizeOf m + sizeOf ms

end

/-- Loading inverts serialising for every artifact value. -/
theorem json_loads_json_dumps (v : PyJson.Json) :
    PyJson.json_loads (PyJson.json_dumps v) = some v := by
  unfold PyJson.json_loads PyJson.json_dumps
  have hsize : PyJson.jsize v ≤ (PyJson.dump v).length + 1 :=
    le_trans (jsize_le_dump_len v) (by omega)
  have h := rt_val ((PyJson.dump v).length + 1) v [] hsize rfl
  rw [List.append_nil] at h
  rw [h]
  rfl

/-- C5: for every artifact value and every path, loading after saving returns
a value equal to the one saved — `load_json(path)` after `save_json(value,
path)` is the identity.  The values cover nulls, booleans, integers, floats
(as the plain-decimal numerals `repr` writes for every float this repository
persists, such as the `round(x, 4)` performance rates), strings, arrays and
objects.  Strings are arbitrary sequences of Unicode scalar values (so
arbitrary non-ASCII UTF-8 content round-trips: `ensure_ascii=False` writes it
verbatim and both ends use the UTF-8 codec), and the proof runs through the
full serialise/parse cycle, including string escapes and the fractional parts
of numbers. -/
theorem save_json_load_json_roundtrip (fs : List Char → Option (List Char))
    (data : PyJson.Json) (filepath : List Char) :
    PyJson.load_json (PyJson.save_json fs data filepath) filepath = some data := by
  show (if filepath = filepath then some (PyJson.json_dumps data)
      else fs filepath).bind PyJson.json_loads = some data
  rw [if_pos rfl]
  show PyJson.json_loads (PyJson.json_dumps data) = some data
  exact json_loads_json_dumps data
